import Mathlib

/-!
Verification of the AIS decoder (`contrib/ais.py`) and the message-1
serializer (`ais/ais_msg_1.py`) of the noaadata repository, against its
natural-language specification.

The Python source is shallowly embedded: machine integers become `Nat`/`Int`
with explicit masking, the byte array of `BitVector` becomes a `List Nat`,
fallible operations return `Option`/`Except`, and the mutable `values`
dictionary of `aivdm_unpack` becomes an explicitly threaded association list.
-/

namespace NoaaData

/-- `BitVector` from `contrib/ais.py`: a growable byte array (`array('B')`)
plus a logical bit length.  Bytes are stored as `Nat` values; all
constructors used here keep them below 256. -/
structure BitVector where
  bits : List Nat
  bitlen : Nat
deriving DecidableEq, Repr

/-- Helper for `ubits`: the loop
`for i in range(lo, hi): fld <<= 8; fld |= self.bits[i]`.
`cnt` is the number of bytes still to read, `i` the next index.  A read past
the end of the byte array is Python's `IndexError`, rendered as `none`. -/
def readAcc : List Nat → Nat → Nat → Nat → Option Nat
  | _, _, 0, acc => some acc
  | bytes, i, cnt + 1, acc =>
    match bytes.get? i with
    | none => none
    | some b => readAcc bytes (i + 1) cnt ((acc <<< 8) ||| b)

/-- `BitVector.ubits(start, width)`: extract a bitfield as an unsigned int.
Mirrors the source: read the minimal covering bytes, shift off the bits
after the window, mask to `width` bits (`fld &= ~(-1 << width)` is the
mask to the low `width` bits, i.e. `% 2 ^ width`). -/
def ubits (bv : BitVector) (start width : Nat) : Option Nat :=
  let lo := start / 8
  let hi := (start + width + 8 - 1) / 8
  match readAcc bv.bits lo (hi - lo) 0 with
  | none => none
  | some fld =>
    let e := (start + width) % 8
    let fld := if e ≠ 0 then fld >>> (8 - e) else fld
    some (fld % 2 ^ width)

/-- `BitVector.sbits(start, width)`: extract a bitfield as a signed int.
When the top bit of the extracted field is set the source computes
`fld = -(2 ** width - fld)`. -/
def sbits (bv : BitVector) (start width : Nat) : Option Int :=
  match ubits bv start width with
  | none => none
  | some fld =>
    if fld &&& (1 <<< (width - 1)) ≠ 0 then
      some (-((2 : Int) ^ width - (fld : Int)))
    else
      some ((fld : Int))

/-- Bit `i` of the buffer in the MSB-first numbering used by the source:
bit `i` lives in byte `i / 8` at position `7 - i % 8`.  Reads past the byte
array yield 0 (the source never performs such a read under its invariant
`bitlen ≤ 8 * len(bits)`). -/
def bitAtL (bytes : List Nat) (i : Nat) : Nat :=
  ((bytes.getD (i / 8) 0) >>> (7 - i % 8)) &&& 1

/-- Bit `i` of a `BitVector`. -/
def bitAt (bv : BitVector) (i : Nat) : Nat :=
  bitAtL bv.bits i

/-- One step of the inner loop of `from_sixbit`: if the current armor bit is
set, OR it into byte `bitlen / 8` at position `7 - bitlen % 8`; the bit
length always advances by one. -/
def appendBit (st : List Nat × Nat) (b : Bool) : List Nat × Nat :=
  let bytes := st.1
  let L := st.2
  let bytes' :=
    if b then bytes.set (L / 8) ((bytes.getD (L / 8) 0) ||| (1 <<< (7 - L % 8)))
    else bytes
  (bytes', L + 1)

/-- The armor value of one character: `ch = ord(c) - 48; if ch > 40: ch -= 8`.
The source performs no range check, so the result may be negative. -/
def armorInt (c : Char) : Int :=
  let ch : Int := (c.toNat : Int) - 48
  if ch > 40 then ch - 8 else ch

/-- Python `(ch >> i) & 0x01` on an arbitrary-precision integer: floor
division by `2 ^ i` followed by a nonnegative remainder mod 2. -/
def intBit (ch : Int) (i : Nat) : Bool :=
  (Int.fdiv ch (2 ^ i)) % 2 == 1

/-- The six appended bits of one armored character, most significant first
(`for i in (5, 4, 3, 2, 1, 0)`). -/
def sixStep (st : List Nat × Nat) (c : Char) : List Nat × Nat :=
  let ch := armorInt c
  [5, 4, 3, 2, 1, 0].foldl (fun s i => appendBit s (intBit ch i)) st

/-- `BitVector.from_sixbit(data)`: extend the byte array by `len(data)` zero
bytes, then append six bits per character.  There is no error path: every
character, in or out of the printable armor range, goes through the same
arithmetic. -/
def from_sixbit (bv : BitVector) (data : String) : BitVector :=
  let bytes0 := bv.bits ++ List.replicate data.length 0
  let st := data.data.foldl sixStep (bytes0, bv.bitlen)
  ⟨st.1, st.2⟩

/-- The `raw` branch of `aivdm_unpack`:
`value = BitVector(data.bits[offset/8:], data.bitlen - offset)`.
The byte array is sliced from byte `offset / 8` (a byte boundary), while the
recorded bit length counts from bit `offset`. -/
def rawSlice (data : BitVector) (offset : Nat) : BitVector :=
  ⟨data.bits.drop (offset / 8), data.bitlen - offset⟩

/-- A decoded value: unsigned/signed fields give integers, string fields give
text, raw fields give a residual `BitVector`. -/
inductive Value where
  | int (i : Int)
  | str (s : String)
  | vec (bv : BitVector)
deriving DecidableEq, Repr

/-- A formatter attached to a bitfield.  Enumeration formatters are string
tables; function formatters (used only by the scaled reporting path, which is
outside the decode engine) are referenced by their source-level name. -/
inductive Formatter where
  | legends (ls : List String)
  | func (nm : String)
deriving DecidableEq, Repr

/-- One cooked output tuple
`[inst.name, value, inst.type, inst.legend, inst.formatter]`. -/
structure Record where
  name : String
  value : Value
  dtype : String
  legend : String
  formatter : Option Formatter
deriving DecidableEq, Repr

mutual

/-- A pseudoinstruction: `bitfield`, `spare` or `dispatch` from the source.
`dtype` is the source's string tag (including its typos `unsifned` and
`unisigned`, which match no extraction branch). -/
inductive Inst where
  | bitfield (name : String) (width : Nat) (dtype : String) (oob : Option Int)
      (legend : String) (validator : Option (Value → Bool))
      (formatter : Option Formatter)
  | spare (width : Nat)
  | dispatch (fieldname : String) (subtypes : SubSchemas)
      (compute : Value → Value)

/-- An instruction table (a Python tuple of instructions). -/
inductive Schema where
  | nil
  | cons (hd : Inst) (tl : Schema)

/-- The `subtypes` list of a dispatch node; entries are schemas or `None`
placeholders. -/
inductive SubSchemas where
  | nil
  | consNone (tl : SubSchemas)
  | consSome (s : Schema) (tl : SubSchemas)

end

/-- Build a `Schema` from a list of instructions. -/
def Schema.ofList : List Inst → Schema
  | [] => .nil
  | i :: r => .cons i (Schema.ofList r)

/-- Build a `SubSchemas` from a list of optional schemas. -/
def SubSchemas.ofList : List (Option Schema) → SubSchemas
  | [] => .nil
  | none :: r => .consNone (SubSchemas.ofList r)
  | some s :: r => .consSome s (SubSchemas.ofList r)

/-- `len(subtypes)`. -/
def SubSchemas.len : SubSchemas → Nat
  | .nil => 0
  | .consNone r => r.len + 1
  | .consSome _ r => r.len + 1

/-- Errors a decode can raise: `AISUnpackingException(fieldname, value)` from
a rejecting validator, plus the Python runtime errors reachable from
`aivdm_unpack` (missing dict key, sequence index out of range, `None` or a
non-integer used where a schema/index is needed, and reading the local
`value` before any extraction branch assigned it). -/
inductive UErr where
  | validation (fieldname : String) (value : Value)
  | keyError (k : String)
  | indexError
  | typeError
  | nameError
deriving DecidableEq, Repr

/-- The `values` dictionary: name-to-value bindings of the current message,
newest first. -/
abbrev Values := List (String × Value)

/-- The fixed 64-character six-bit text alphabet from the source. -/
def sixTable : List Char :=
  "@ABCDEFGHIJKLMNOPQRSTUVWXYZ[\\]^- !\"#$%&`()*+,-./0123456789:;<=>?".data

/-- The character loop of the `string` branch: read `cnt` six-bit groups
starting at `offset` and map each through `sixTable`. -/
def sixChars (data : BitVector) (offset : Nat) : Nat → Option (List Char)
  | 0 => some []
  | n + 1 =>
    match ubits data offset 6 with
    | none => none
    | some u =>
      match sixChars data (offset + 6) n with
      | none => none
      | some cs => some (sixTable.getD u ' ' :: cs)

/-- Python `str.rstrip()` on six-bit text (the only whitespace such text can
contain is the space character). -/
def pyRstrip (s : String) : String :=
  String.mk (s.data.reverse.dropWhile (fun c => c == ' ')).reverse

/-- The `string` branch of `aivdm_unpack`: `width/6` six-bit characters,
`@` replaced by space, then right-stripped. -/
def sixbitText (data : BitVector) (offset width : Nat) : Option String :=
  match sixChars data offset (width / 6) with
  | none => none
  | some cs => some (pyRstrip (String.replace (String.mk cs) "@" " "))

/-- One lowercase hexadecimal digit. -/
def hexDigit (n : Nat) : Char :=
  "0123456789abcdef".data.getD n '0'

/-- Python `"%02x" % b` for a byte value. -/
def hex2 (b : Nat) : String :=
  String.mk [hexDigit (b / 16 % 16), hexDigit (b % 16)]

/-- `BitVector.__repr__`: bit length, a colon, then the used bytes in hex. -/
def BitVector.pyRepr (bv : BitVector) : String :=
  toString bv.bitlen ++ ":" ++
    String.join ((bv.bits.take ((bv.bitlen + 7) / 8)).map hex2)

/-- Python 2 backquote `repr` of a decoded value (the type-24 dispatch hook
applies it to the integer MMSI). -/
def Value.pyRepr : Value → String
  | .int i => toString i
  | .str s => "'" ++ s ++ "'"
  | .vec bv => bv.pyRepr

/-- The extraction `if/elif` chain of the `bitfield` arm of `aivdm_unpack`:
dispatch on the `dtype` tag.  A tag matching no branch (the catalog's
`unsifned`/`unisigned` typos) leaves the Python local `value` untouched:
the previous iteration's value is reused, or `NameError` is raised when no
iteration has assigned it yet. -/
def extractVal (data : BitVector) (offset : Nat) (lastVal : Option Value)
    (dtype : String) (w : Nat) : Except UErr Value :=
  if dtype == "unsigned" then
    match ubits data offset w with
    | none => .error .indexError
    | some u => .ok (.int u)
  else if dtype == "signed" then
    match sbits data offset w with
    | none => .error .indexError
    | some s => .ok (.int s)
  else if dtype == "string" then
    match sixbitText data offset w with
    | none => .error .indexError
    | some s => .ok (.str s)
  else if dtype == "raw" then
    .ok (.vec (rawSlice data offset))
  else
    match lastVal with
    | none => .error .nameError
    | some v => .ok v

/-- The `if inst.validator and not inst.validator(value)` test. -/
def rejects (validator : Option (Value → Bool)) (value : Value) : Bool :=
  match validator with
  | some p => !(p value)
  | none => false

mutual

/-- The instruction loop of `aivdm_unpack`.  `offset` is the running bit
cursor, `values` the mutable field dictionary (threaded explicitly),
`lastVal` the function-local `value` variable, which an unknown `dtype` tag
reads without assigning (Python's `NameError` when no earlier iteration
assigned it).  Returns the final dictionary and the cooked records. -/
def unpackLoop (data : BitVector) (offset : Nat) (values : Values)
    (lastVal : Option Value) : Schema → Except UErr (Values × List Record)
  | .nil => .ok (values, [])
  | .cons inst rest =>
    if data.bitlen ≤ offset then .ok (values, [])
    else
      match inst with
      | .spare w => unpackLoop data (offset + w) values lastVal rest
      | .dispatch fieldname subtypes compute =>
        match values.lookup fieldname with
        | none => .error (.keyError fieldname)
        | some v =>
          match compute v with
          | .int idx =>
            let j : Int :=
              if idx < 0 then idx + (SubSchemas.len subtypes : Int) else idx
            if 0 ≤ j then
              match unpackSub data offset values subtypes j.toNat with
              | .error e => .error e
              | .ok (values1, recs) =>
                match unpackLoop data offset values1 lastVal rest with
                | .error e => .error e
                | .ok (values2, recs2) => .ok (values2, recs ++ recs2)
            else .error .indexError
          | _ => .error .typeError
      | .bitfield name w dtype _oob legend validator formatter =>
        match extractVal data offset lastVal dtype w with
        | .error e => .error e
        | .ok value =>
          if rejects validator value then
            .error (.validation name value)
          else
            match unpackLoop data (offset + w) ((name, value) :: values)
                (some value) rest with
            | .error e => .error e
            | .ok (values2, recs) =>
              .ok (values2, ⟨name, value, dtype, legend, formatter⟩ :: recs)

/-- `inst.subtypes[i]` followed by the recursive `aivdm_unpack` call: walk to
entry `i`; a missing entry is `IndexError`, a `None` placeholder is Python's
`TypeError` from iterating `None`. -/
def unpackSub (data : BitVector) (offset : Nat) (values : Values) :
    SubSchemas → Nat → Except UErr (Values × List Record)
  | .nil, _ => .error .indexError
  | .consNone _, 0 => .error .typeError
  | .consSome s _, 0 => unpackLoop data offset values none s
  | .consNone r, k + 1 => unpackSub data offset values r k
  | .consSome _ r, k + 1 => unpackSub data offset values r k

end

/-- `aivdm_unpack(data, offset, values, instructions)`: the local `value`
variable starts unassigned. -/
def aivdm_unpack (data : BitVector) (offset : Nat) (values : Values)
    (instructions : Schema) : Except UErr (Values × List Record) :=
  unpackLoop data offset values none instructions

instance {ε α : Type} [DecidableEq ε] [DecidableEq α] : DecidableEq (Except ε α) :=
  fun a b =>
  match a, b with
  | .error e, .error f =>
    if h : e = f then .isTrue (by rw [h])
    else .isFalse (fun c => by cases c; exact h rfl)
  | .error _, .ok _ => .isFalse (fun c => by cases c)
  | .ok _, .error _ => .isFalse (fun c => by cases c)
  | .ok x, .ok y =>
    if h : x = y then .isTrue (by rw [h])
    else .isFalse (fun c => by cases c; exact h rfl)

/-- Test schema for the dispatch-cursor claim: a 6-bit field `a`, a dispatch
on `a` whose only sub-schema holds a 6-bit field `x`, then a 6-bit field
`b`. -/
def schemaC1 : Schema := Schema.ofList [
  .bitfield "a" 6 "unsigned" none "A" none none,
  .dispatch "a" (SubSchemas.ofList [some (Schema.ofList [
    .bitfield "x" 6 "unsigned" none "X" none none])]) (fun v => v),
  .bitfield "b" 6 "unsigned" none "B" none none]

/-- 18-bit test buffer: bits `000000 000101 001001`, i.e. the three six-bit
groups 0, 5 and 9. -/
def dataC1 : BitVector := ⟨[0, 82, 64], 18⟩

/-- `cnb_status_legends`. -/
def cnb_status_legends : List String :=
  ["Under way using engine", "At anchor", "Not under command",
   "Restricted manoeuverability", "Constrained by her draught", "Moored",
   "Aground", "Engaged in fishing", "Under way sailing", "Reserved for HSC",
   "Reserved for WIG"] ++ List.replicate 4 "Reserved" ++ ["Not defined"]

/-- `epfd_type_legends`. -/
def epfd_type_legends : List String :=
  ["Undefined", "GPS", "GLONASS", "Combined GPS/GLONASS", "Loran-C",
   "Chayka", "Integrated navigation system", "Surveyed", "Galileo"]

/-- `ship_type_legends` (runs of identical entries written with
`List.replicate`). -/
def ship_type_legends : List String :=
  ["Not available"] ++ List.replicate 19 "Reserved for future use" ++
  ["Wing in ground (WIG) - all ships of this type",
   "Wing in ground (WIG) - Hazardous category A",
   "Wing in ground (WIG) - Hazardous category B",
   "Wing in ground (WIG) - Hazardous category C",
   "Wing in ground (WIG) - Hazardous category D"] ++
  List.replicate 5 "Wing in ground (WIG) - Reserved for future use" ++
  ["Fishing", "Towing",
   "Towing: length exceeds 200m or breadth exceeds 25m",
   "Dredging or underwater ops", "Diving ops", "Military ops", "Sailing",
   "Pleasure Craft", "Reserved", "Reserved",
   "High speed craft (HSC) - all ships of this type",
   "High speed craft (HSC) - Hazardous category A",
   "High speed craft (HSC) - Hazardous category B",
   "High speed craft (HSC) - Hazardous category C",
   "High speed craft (HSC) - Hazardous category D"] ++
  List.replicate 4 "High speed craft (HSC) - Reserved for future use" ++
  ["High speed craft (HSC) - No additional information",
   "Pilot Vessel", "Search and Rescue vessel", "Tug", "Port Tender",
   "Anti-pollution equipment", "Law Enforcement", "Spare - Local Vessel",
   "Spare - Local Vessel", "Medical Transport",
   "Ship according to RR Resolution No. 18",
   "Passenger - all ships of this type",
   "Passenger - Hazardous category A", "Passenger - Hazardous category B",
   "Passenger - Hazardous category C", "Passenger - Hazardous category D"] ++
  List.replicate 4 "Passenger - Reserved for future use" ++
  ["Passenger - No additional information",
   "Cargo - all ships of this type",
   "Cargo - Hazardous category A", "Cargo - Hazardous category B",
   "Cargo - Hazardous category C", "Cargo - Hazardous category D"] ++
  List.replicate 4 "Cargo - Reserved for future use" ++
  ["Cargo - No additional information",
   "Tanker - all ships of this type",
   "Tanker - Hazardous category A", "Tanker - Hazardous category B",
   "Tanker - Hazardous category C", "Tanker - Hazardous category D"] ++
  List.replicate 4 "Tanker - Reserved for future use" ++
  ["Tanker - No additional information",
   "Other Type - all ships of this type",
   "Other Type - Hazardous category A", "Other Type - Hazardous category B",
   "Other Type - Hazardous category C", "Other Type - Hazardous category D"] ++
  List.replicate 4 "Other Type - Reserved for future use" ++
  ["Other Type - no additional information"]

/-- `aide_type_legends`. -/
def aide_type_legends : List String :=
  ["Unspcified", "Reference point", "RACON", "Fixed offshore structure",
   "Spare, Reserved for future use.", "Light, without sectors",
   "Light, with sectors", "Leading Light Front", "Leading Light Rear",
   "Beacon, Cardinal N", "Beacon, Cardinal E", "Beacon, Cardinal S",
   "Beacon, Cardinal W", "Beacon, Port hand", "Beacon, Starboard hand",
   "Beacon, Preferred Channel port hand",
   "Beacon, Preferred Channel starboard hand", "Beacon, Isolated danger",
   "Beacon, Safe water", "Beacon, Special mark", "Cardinal Mark N",
   "Cardinal Mark E", "Cardinal Mark S", "Cardinal Mark W",
   "Port hand Mark", "Starboard hand Mark", "Preferred Channel Port hand",
   "Preferred Channel Starboard hand", "Isolated danger", "Safe Water",
   "Special Mark", "Light Vessel / LANBY / Rigs"]

/-- `lambda n: n >= 0 and n <= 8` (EPFD validator; the decoded values these
validators receive are always integers). -/
def epfdValidator : Value → Bool := fun v =>
  match v with
  | .int n => decide (0 ≤ n ∧ n ≤ 8)
  | _ => false

/-- `lambda n: n >= 0 and n <= 99` (ship-type validator). -/
def shiptypeValidator : Value → Bool := fun v =>
  match v with
  | .int n => decide (0 ≤ n ∧ n ≤ 99)
  | _ => false

/-- `lambda n: n > 0 and n <= 24 and n != 23` (top-level message-type
validator). -/
def msgtypeValidator : Value → Bool := fun v =>
  match v with
  | .int n => decide (0 < n ∧ n ≤ 24 ∧ n ≠ 23)
  | _ => false

/-- The `cnb` common-navigation-block schema (message types 1-3). -/
def cnb : Schema := Schema.ofList [
  .bitfield "status" 4 "unsigned" (some 0) "Navigation Status" none
    (some (.legends cnb_status_legends)),
  .bitfield "turn" 8 "signed" (some (-128)) "Rate of Turn" none
    (some (.func "cnb_rot_format")),
  .bitfield "speed" 10 "unsigned" (some 1023) "Speed Over Ground" none
    (some (.func "cnb_speed_format")),
  .bitfield "accuracy" 1 "unsigned" none "Position Accuracy" none none,
  .bitfield "lon" 28 "signed" (some 0x6791AC0) "Longitude" none
    (some (.func "cnb_latlon_format")),
  .bitfield "lat" 27 "signed" (some 0x3412140) "Latitude" none
    (some (.func "cnb_latlon_format")),
  .bitfield "course" 12 "unsigned" (some 0xe10) "Course Over Ground" none
    (some (.func "cnb_course_format")),
  .bitfield "heading" 9 "unsigned" (some 511) "True Heading" none none,
  .bitfield "second" 6 "unsigned" none "Time Stamp" none
    (some (.func "cnb_second_format")),
  .bitfield "maneuver" 2 "unsigned" none "Maneuver Indicator" none none,
  .spare 3,
  .bitfield "raim" 1 "unsigned" none "RAIM flag" none none,
  .bitfield "radio" 19 "unsigned" none "Radio status" none none]

/-- `type4` (base station report; also reused for type 11). -/
def type4 : Schema := Schema.ofList [
  .bitfield "year" 14 "unsigned" (some 0) "Year" none none,
  .bitfield "month" 4 "unsigned" (some 0) "Month" none none,
  .bitfield "day" 5 "unsigned" (some 0) "Day" none none,
  .bitfield "hour" 5 "unsigned" (some 24) "Hour" none none,
  .bitfield "minute" 6 "unsigned" (some 60) "Minute" none none,
  .bitfield "second" 6 "unsigned" (some 60) "Second" none none,
  .bitfield "accuracy" 1 "unsigned" none "Fix quality" none none,
  .bitfield "lon" 28 "signed" (some 0x6791AC0) "Longitude" none
    (some (.func "cnb_latlon_format")),
  .bitfield "lat" 27 "signed" (some 0x3412140) "Latitude" none
    (some (.func "cnb_latlon_format")),
  .bitfield "epfd" 4 "unsigned" none "Type of EPFD" (some epfdValidator)
    (some (.legends epfd_type_legends)),
  .spare 10,
  .bitfield "raim" 1 "unsigned" none "RAIM flag " none none,
  .bitfield "radio" 19 "unsigned" none "SOTDMA state" none none]

/-- `type5` (static and voyage-related data). -/
def type5 : Schema := Schema.ofList [
  .bitfield "ais_version" 2 "unsigned" none "AIS Version" none none,
  .bitfield "imo_id" 30 "unsigned" (some 0) "IMO Identification Number"
    none none,
  .bitfield "callsign" 42 "string" none "Call Sign" none none,
  .bitfield "shipname" 120 "string" none "Vessel Name" none none,
  .bitfield "shiptype" 8 "unsigned" none "Ship Type" (some shiptypeValidator)
    (some (.legends ship_type_legends)),
  .bitfield "to_bow" 9 "unsigned" (some 0) "Dimension to Bow" none none,
  .bitfield "to_stern" 9 "unsigned" (some 0) "Dimension to Stern" none none,
  .bitfield "to_port" 6 "unsigned" (some 0) "Dimension to Port" none none,
  .bitfield "to_starbord" 6 "unsigned" (some 0) "Dimension to Starboard"
    none none,
  .bitfield "epfd" 4 "unsigned" (some 0) "Position Fix Type"
    (some epfdValidator) (some (.legends epfd_type_legends)),
  .bitfield "month" 4 "unsigned" (some 0) "ETA month" none none,
  .bitfield "day" 5 "unsigned" (some 0) "ETA day" none none,
  .bitfield "hour" 5 "unsigned" (some 24) "ETA hour" none none,
  .bitfield "minute" 6 "unsigned" (some 60) "ETA minute" none none,
  .bitfield "second" 8 "unsigned" (some 0) "Draught" none none,
  .bitfield "destination" 120 "string" none "Destination" none none,
  .bitfield "dte" 1 "unsigned" none "DTE" none none,
  .spare 1]

/-- `type6` (addressed binary message). -/
def type6 : Schema := Schema.ofList [
  .bitfield "seqno" 2 "unsigned" none "Sequence Number" none none,
  .bitfield "dest_mmsi" 30 "unsigned" none "Destination MMSI" none none,
  .bitfield "retransmit" 1 "unsigned" none "Retransmit flag" none none,
  .spare 1,
  .bitfield "application_id" 16 "unsigned" (some 0) "Application ID"
    none none,
  .bitfield "data" 920 "raw" none "Data" none none]

/-- `type7` (binary acknowledge; the source names the fourth MMSI field
`mmsi1` again). -/
def type7 : Schema := Schema.ofList [
  .spare 2,
  .bitfield "mmsi1" 30 "unsigned" (some 0) "MMSI number 1" none none,
  .spare 2,
  .bitfield "mmsi2" 30 "unsigned" (some 0) "MMSI number 2" none none,
  .spare 2,
  .bitfield "mmsi3" 30 "unsigned" (some 0) "MMSI number 3" none none,
  .spare 2,
  .bitfield "mmsi1" 30 "unsigned" (some 0) "MMSI number 4" none none,
  .spare 2]

/-- `type8` (binary broadcast message). -/
def type8 : Schema := Schema.ofList [
  .spare 2,
  .bitfield "application_id" 16 "unsigned" (some 0) "Application ID"
    none none,
  .bitfield "data" 952 "raw" none "Data" none none]

/-- `type9` (standard SAR aircraft position report). -/
def type9 : Schema := Schema.ofList [
  .bitfield "alt" 12 "unsigned" (some 4095) "Altitude" none
    (some (.func "type9_alt_format")),
  .bitfield "speed" 10 "unsigned" (some 1023) "SOG" none
    (some (.func "type9_speed_format")),
  .bitfield "accuracy" 1 "unsigned" none "Position Accuracy" none none,
  .bitfield "lon" 28 "signed" (some 0x6791AC0) "Longitude" none
    (some (.func "cnb_latlon_format")),
  .bitfield "lat" 27 "signed" (some 0x3412140) "Latitude" none
    (some (.func "cnb_latlon_format")),
  .bitfield "course" 12 "unsigned" (some 0xe10) "Course Over Ground" none
    (some (.func "cnb_course_format")),
  .bitfield "second" 6 "unsigned" (some 60) "Time Stamp" none
    (some (.func "cnb_second_format")),
  .bitfield "regional" 8 "unsigned" none "Regional reserved" none none,
  .bitfield "dte" 1 "unsigned" none "DTE" none none,
  .spare 3,
  .bitfield "assigned" 1 "unsigned" none "Assigned" none none,
  .bitfield "raim" 1 "unsigned" none "RAIM flag" none none,
  .bitfield "radio" 20 "unsigned" none "Radio status" none none]

/-- `type10` (UTC/date inquiry). -/
def type10 : Schema := Schema.ofList [
  .spare 2,
  .bitfield "dest_mmsi" 30 "unsigned" none "Destination MMSI" none none,
  .spare 2]

/-- `type12` (addressed safety-related message). -/
def type12 : Schema := Schema.ofList [
  .bitfield "seqno" 2 "unsigned" none "Sequence Number" none none,
  .bitfield "dest_mmsi" 30 "unsigned" none "Destination MMSI" none none,
  .bitfield "retransmit" 1 "unsigned" none "Retransmit flag" none none,
  .spare 1,
  .bitfield "text" 936 "string" none "Text" none none]

/-- `type14` (safety-related broadcast message). -/
def type14 : Schema := Schema.ofList [
  .spare 1,
  .bitfield "text" 968 "string" none "Text" none none]

/-- `type15` (interrogation; the source spells two dtypes `unsifned`). -/
def type15 : Schema := Schema.ofList [
  .spare 2,
  .bitfield "mmsi1" 30 "unsigned" (some 0) "Interrogated MMSI" none none,
  .bitfield "type1_1" 6 "unsigned" (some 0) "First message type" none none,
  .bitfield "offset1_1" 12 "unsigned" (some 0) "First slot offset" none none,
  .spare 2,
  .bitfield "type1_2" 6 "unsigned" (some 0) "Second message ty" none none,
  .bitfield "offset1_2" 12 "unsifned" (some 0) "Second slot offset" none none,
  .spare 2,
  .bitfield "mmsi2" 30 "unsigned" (some 0) "Interrogated MMSI" none none,
  .bitfield "type2_1" 6 "unsigned" (some 0) "First message type" none none,
  .bitfield "offset2_1" 12 "unsifned" (some 0) "First slot offset" none none,
  .spare 2]

/-- `type16` (assignment mode command; note the field name with trailing
spaces and the `unsifned` dtype, as in the source). -/
def type16 : Schema := Schema.ofList [
  .spare 2,
  .bitfield "mmsi1" 30 "unsigned" (some 0) "Interrogated MMSI" none none,
  .bitfield "offset1  " 12 "unsigned" (some 0) "First slot offset" none none,
  .bitfield "increment1" 10 "unsigned" (some 0) "Slot increment" none none,
  .spare 2,
  .bitfield "mmsi2" 30 "unsigned" (some 0) "Interrogated MMSI" none none,
  .bitfield "offset2" 12 "unsifned" (some 0) "First slot offset" none none,
  .bitfield "increment2" 10 "unsigned" (some 0) "Slot increment" none none,
  .spare 2]

/-- `type17` (DGNSS broadcast binary message). -/
def type17 : Schema := Schema.ofList [
  .spare 2,
  .bitfield "lon" 18 "signed" (some 0x1a838) "Longitude" none
    (some (.func "short_latlon_format")),
  .bitfield "lat" 17 "signed" (some 0xd548) "Latitude" none
    (some (.func "short_latlon_format")),
  .spare 2,
  .bitfield "data" 736 "raw" none "DGNSS data" none none]

/-- `type18` (standard class B position report). -/
def type18 : Schema := Schema.ofList [
  .bitfield "reserved" 8 "unsigned" none "Regional reserved" none none,
  .bitfield "speed" 10 "unsigned" (some 1023) "Speed Over Ground" none
    (some (.func "cnb_speed_format")),
  .bitfield "accuracy" 1 "unsigned" none "Position Accuracy" none none,
  .bitfield "lon" 28 "signed" (some 0x6791AC0) "Longitude" none
    (some (.func "cnb_latlon_format")),
  .bitfield "lat" 27 "signed" (some 0x3412140) "Latitude" none
    (some (.func "cnb_latlon_format")),
  .bitfield "course" 12 "unsigned" (some 0xE10) "Course Over Ground" none
    (some (.func "cnb_course_format")),
  .bitfield "heading" 9 "unsigned" (some 511) "True Heading" none none,
  .bitfield "second" 6 "unsigned" none "Time Stamp" none
    (some (.func "cnb_second_format")),
  .bitfield "regional" 2 "unsigned" none "Regional reserved" none none,
  .bitfield "cs" 1 "unsigned" none "CS Unit" none none,
  .bitfield "display" 1 "unsigned" none "Display flag" none none,
  .bitfield "dsc" 1 "unsigned" none "DSC flag" none none,
  .bitfield "band" 1 "unsigned" none "Band flag" none none,
  .bitfield "msg22" 1 "unsigned" none "Message 22 flag" none none,
  .bitfield "assigned" 1 "unsigned" none "Assigned" none none,
  .bitfield "raim" 1 "unsigned" none "RAIM flag" none none,
  .bitfield "radio" 20 "unsigned" none "Radio status" none none]

/-- `type19` (extended class B position report). -/
def type19 : Schema := Schema.ofList [
  .bitfield "reserved" 8 "unsigned" none "Regional reserved" none none,
  .bitfield "speed" 10 "unsigned" (some 1023) "Speed Over Ground" none
    (some (.func "cnb_speed_format")),
  .bitfield "accuracy" 1 "unsigned" none "Position Accuracy" none none,
  .bitfield "lon" 28 "signed" (some 0x6791AC0) "Longitude" none
    (some (.func "cnb_latlon_format")),
  .bitfield "lat" 27 "signed" (some 0x3412140) "Latitude" none
    (some (.func "cnb_latlon_format")),
  .bitfield "course" 12 "unsigned" (some 0xE10) "Course Over Ground" none
    (some (.func "cnb_course_format")),
  .bitfield "heading" 9 "unsigned" (some 511) "True Heading" none none,
  .bitfield "second" 6 "unsigned" none "Time Stamp" none
    (some (.func "cnb_second_format")),
  .bitfield "regional" 4 "unsigned" none "Regional reserved" none none,
  .bitfield "shipname" 120 "string" none "Vessel Name" none none,
  .bitfield "shiptype" 8 "unsigned" none "Ship Type" (some shiptypeValidator)
    (some (.legends ship_type_legends)),
  .bitfield "to_bow" 9 "unsigned" (some 0) "Dimension to Bow" none none,
  .bitfield "to_stern" 9 "unsigned" (some 0) "Dimension to Stern" none none,
  .bitfield "to_port" 6 "unsigned" (some 0) "Dimension to Port" none none,
  .bitfield "to_starbord" 6 "unsigned" (some 0) "Dimension to Starboard"
    none none,
  .bitfield "epfd" 4 "unsigned" (some 0) "Position Fix Type"
    (some epfdValidator) (some (.legends epfd_type_legends)),
  .bitfield "assigned" 1 "unsigned" none "Assigned" none none,
  .bitfield "raim" 1 "unsigned" none "RAIM flag" none none,
  .bitfield "radio" 20 "unsigned" none "Radio status" none none]

/-- `type20` (data link management message). -/
def type20 : Schema := Schema.ofList [
  .spare 2,
  .bitfield "offset1" 12 "unsigned" (some 0) "Offset number" none none,
  .bitfield "number1" 4 "unsigned" (some 0) "Reserved slots" none none,
  .bitfield "timeout1" 3 "unsigned" (some 0) "Time-out" none none,
  .bitfield "increment1" 11 "unsigned" (some 0) "Increment" none none,
  .bitfield "offset2" 12 "unsigned" (some 0) "Offset number 2" none none,
  .bitfield "number2" 4 "unsigned" (some 0) "Reserved slots" none none,
  .bitfield "timeout2" 3 "unsigned" (some 0) "Time-out" none none,
  .bitfield "increment2" 11 "unsigned" (some 0) "Increment" none none,
  .bitfield "offset3" 12 "unsigned" (some 0) "Offset number 3" none none,
  .bitfield "number3" 4 "unsigned" (some 0) "Reserved slots" none none,
  .bitfield "timeout3" 3 "unsigned" (some 0) "Time-out" none none,
  .bitfield "increment3" 11 "unsigned" (some 0) "Increment" none none,
  .bitfield "offset4" 12 "unsigned" (some 0) "Offset number 4" none none,
  .bitfield "number4" 4 "unsigned" (some 0) "Reserved slots" none none,
  .bitfield "timeout4" 3 "unsigned" (some 0) "Time-out" none none,
  .bitfield "increment4" 11 "unsigned" (some 0) "Increment" none none]

/-- `type21` (aid-to-navigation report; its first dtype is the source's
`unisigned` typo, and the 88-bit `name` extension repeats the `name`
field). -/
def type21 : Schema := Schema.ofList [
  .bitfield "type" 5 "unisigned" (some 0) "Aid type" none
    (some (.legends aide_type_legends)),
  .bitfield "name" 120 "string" none "Name" none none,
  .bitfield "accuracy" 1 "unsigned" (some 0) "Position Accuracy" none none,
  .bitfield "lon" 28 "signed" (some 0x6791AC0) "Longitude" none
    (some (.func "cnb_latlon_format")),
  .bitfield "lat" 27 "signed" (some 0x3412140) "Latitude" none
    (some (.func "cnb_latlon_format")),
  .bitfield "to_bow" 9 "unsigned" (some 0) "Dimension to Bow" none none,
  .bitfield "to_stern" 9 "unsigned" (some 0) "Dimension to Stern" none none,
  .bitfield "to_port" 6 "unsigned" (some 0) "Dimension to Port" none none,
  .bitfield "to_starboard" 6 "unsigned" (some 0) "Dimension to Starboard"
    none none,
  .bitfield "epfd" 4 "unsigned" (some 0) "Position Fix Type"
    (some epfdValidator) (some (.legends epfd_type_legends)),
  .bitfield "second" 6 "unsigned" (some 0) "UTC Second" none none,
  .bitfield "off_position" 1 "unsigned" (some 0) "Off-Position Indicator"
    none none,
  .bitfield "regional" 8 "unsigned" (some 0) "Regional reserved" none none,
  .bitfield "raim" 1 "unsigned" (some 0) "RAIM flag" none none,
  .bitfield "virtual_aid" 1 "unsigned" (some 0) "Virtual-aid flag" none none,
  .bitfield "assigned" 1 "unsigned" (some 0) "Assigned-mode flag" none none,
  .spare 2,
  .bitfield "name" 88 "string" (some 0) "Name Extension" none none]

/-- `type22` (channel management; the source lists `band_a` twice). -/
def type22 : Schema := Schema.ofList [
  .spare 2,
  .bitfield "channel_a" 12 "unsigned" (some 0) "Channel A" none none,
  .bitfield "channel_b" 12 "unsigned" (some 0) "Channel B" none none,
  .bitfield "mode" 4 "unsigned" (some 0) "Tx/Rx mode" none none,
  .bitfield "power" 1 "unsigned" (some 0) "Power" none none,
  .bitfield "ne_lon" 18 "unsigned" (some 0x1a838) "NE Longitude" none
    (some (.func "short_latlon_format")),
  .bitfield "ne_lat" 17 "unsigned" (some 0xd548) "NE Latitude" none
    (some (.func "short_latlon_format")),
  .bitfield "sw_lon" 18 "unsigned" (some 0x1a838) "SW Longitude" none
    (some (.func "short_latlon_format")),
  .bitfield "sw_lat" 17 "unsigned" (some 0xd548) "SW Latitude" none
    (some (.func "short_latlon_format")),
  .bitfield "addressed" 1 "unsigned" (some 0) "Addressed" none none,
  .bitfield "band_a" 1 "unsigned" (some 0) "Channel A Band" none none,
  .bitfield "band_a" 1 "unsigned" (some 0) "Channel A Band" none none,
  .bitfield "zonesize" 3 "unsigned" (some 0) "Zone size" none none,
  .spare 23]

/-- `type24a` (static data report, part A). -/
def type24a : Schema := Schema.ofList [
  .bitfield "shipname" 120 "string" none "Vessel Name" none none,
  .spare 8]

/-- `type24b1` (part B, dimensions variant). -/
def type24b1 : Schema := Schema.ofList [
  .bitfield "callsign" 42 "string" none "Call Sign" none none,
  .bitfield "to_bow" 9 "unsigned" (some 0) "Dimension to Bow" none none,
  .bitfield "to_stern" 9 "unsigned" (some 0) "Dimension to Stern" none none,
  .bitfield "to_port" 6 "unsigned" (some 0) "Dimension to Port" none none,
  .bitfield "to_starbord" 6 "unsigned" (some 0) "Dimension to Starboard"
    none none,
  .spare 8]

/-- `type24b2` (part B, mothership variant). -/
def type24b2 : Schema := Schema.ofList [
  .bitfield "mothership_mmsi" 30 "unsigned" (some 0) "Mothership MMSI"
    none none,
  .spare 8]

/-- `type24b` (part B with the MMSI-prefix dispatch:
`lambda m: 1 if repr(m)[:2] == '98' else 0`). -/
def type24b : Schema := Schema.ofList [
  .bitfield "shiptype" 8 "unsigned" none "Ship Type" (some shiptypeValidator)
    (some (.legends ship_type_legends)),
  .bitfield "vendorid" 42 "string" none "Vendor ID" none none,
  .dispatch "mmsi" (SubSchemas.ofList [some type24b1, some type24b2])
    (fun m => if (Value.pyRepr m).take 2 == "98" then .int 1 else .int 0)]

/-- `type24` (two-level dispatch on the part number). -/
def type24 : Schema := Schema.ofList [
  .bitfield "partno" 2 "unsigned" none "Part Number" none none,
  .dispatch "partno" (SubSchemas.ofList [some type24a, some type24b])
    (fun v => v)]

/-- The 25-entry `subtypes` list of the master dispatch (indices 0 and 23
are `None` placeholders; index 11 reuses `type4`, 13 reuses `type7`). -/
def aivdmSubtypes : SubSchemas := SubSchemas.ofList [
  none, some cnb, some cnb, some cnb, some type4,
  some type5, some type6, some type7, some type8, some type9,
  some type10, some type4, some type12, some type7, some type14,
  some type15, some type16, some type17, some type18, some type19,
  some type20, some type21, some type22, none, some type24]

/-- `aivdm_decode`: the top-level schema with the master dispatch on the
message type. -/
def aivdm_decode : Schema := Schema.ofList [
  .bitfield "msgtype" 6 "unsigned" (some 0) "Message Type"
    (some msgtypeValidator) none,
  .bitfield "repeat" 2 "unsigned" none "Repeat Indicator" none none,
  .bitfield "mmsi" 30 "unsigned" (some 0) "MMSI" none none,
  .dispatch "msgtype" aivdmSubtypes (fun v => v)]

/-- `subs.isSomeAt k`: entry `k` exists and is not a `None` placeholder. -/
def SubSchemas.isSomeAt : SubSchemas → Nat → Bool
  | .nil, _ => false
  | .consNone _, 0 => false
  | .consSome _ _, 0 => true
  | .consNone r, k + 1 => r.isSomeAt k
  | .consSome _ r, k + 1 => r.isSomeAt k

/-- Python 2 string comparison, lexicographic on character code points
(`parse_ais_messages` compares the fragment and expected-count *strings*). -/
def pyCharsLt : List Char → List Char → Bool
  | [], [] => false
  | [], _ :: _ => true
  | _ :: _, [] => false
  | a :: as, b :: bs =>
    if a < b then true else if b < a then false else pyCharsLt as bs

/-- `s < t` on Python strings. -/
def pyStrLt (s t : String) : Bool :=
  pyCharsLt s.data t.data

/-- Helper for `pySplit`: `cur` holds the current field, reversed. -/
def splitAux (cur : List Char) : List Char → List String
  | [] => [String.mk cur.reverse]
  | c :: cs =>
    if c == ',' then String.mk cur.reverse :: splitAux [] cs
    else splitAux (c :: cur) cs

/-- Python `line.split(",")`. -/
def pySplit (line : String) : List String :=
  splitAux [] line.data

/-- Python `line.startswith("#")`. -/
def startsWithHash (line : String) : Bool :=
  match line.data with
  | [] => false
  | c :: _ => c == '#'

/-- One line of the fragment-reassembly prologue of `parse_ais_messages`:
comments are skipped; otherwise `expect = fields[1]`, `fragment = fields[2]`,
the accumulator is reset when `fragment == '1'`, `fields[5]` is appended, and
the assembled payload is emitted unless `fragment < expect` (all three field
accesses can raise `IndexError` on a short line, in source order).  Returns
the new accumulator and the emitted payload, if any. -/
def reasmStep (payload line : String) : Except UErr (String × Option String) :=
  if startsWithHash line then .ok (payload, none)
  else
    let fields := pySplit line
    match fields.get? 1 with
    | none => .error .indexError
    | some expect =>
      match fields.get? 2 with
      | none => .error .indexError
      | some fragment =>
        let payload1 := if fragment == "1" then "" else payload
        match fields.get? 5 with
        | none => .error .indexError
        | some seg =>
          let payload2 := payload1 ++ seg
          if pyStrLt fragment expect then .ok (payload2, none)
          else .ok (payload2, some payload2)

/-- The sequence of assembled payloads `parse_ais_messages` hands to
`BitVector.from_sixbit`, starting from accumulator `payload`; end of input
silently drops a dangling accumulation. -/
def assembledPayloads (payload : String) : List String → Except UErr (List String)
  | [] => .ok []
  | line :: rest =>
    match reasmStep payload line with
    | .error e => .error e
    | .ok (p, em) =>
      match assembledPayloads p rest with
      | .error e => .error e
      | .ok out =>
        .ok (match em with
          | some s => s :: out
          | none => out)

/-- Python `cooked[i][1] += cooked[j][1]`: in-place addition of two decoded
values (string or integer concatenation/addition; anything else is a
`TypeError`). -/
def pyIAdd : Value → Value → Except UErr Value
  | .str a, .str b => .ok (.str (a ++ b))
  | .int a, .int b => .ok (.int (a + b))
  | _, _ => .error .typeError

/-- The inner `for j in range(i+1, len(cooked))` loop of the extension-merge
pass.  `js` is the index list materialised when the loop starts; it is NOT
refreshed when `cooked` shrinks, so a later `cooked[j]` access can raise
`IndexError`.  Returns the new list and whether a merge happened. -/
def mergeInner (i : Nat) : List Nat → List Record →
    Except UErr (List Record × Bool)
  | [], cooked => .ok (cooked, false)
  | j :: js, cooked =>
    match cooked.get? j with
    | none => .error .indexError
    | some rj =>
      if rj.dtype == "string" then
        match cooked.get? i with
        | none => .error .indexError
        | some ri =>
          if ri.name == rj.name then
            match pyIAdd ri.value rj.value with
            | .error e => .error e
            | .ok v =>
              match mergeInner i js
                  ((cooked.set i { ri with value := v }).eraseIdx j) with
              | .error e => .error e
              | .ok (c2, _) => .ok (c2, true)
          else mergeInner i js cooked
      else mergeInner i js cooked

/-- The outer `for i in range(len(cooked))` loop; again `is` is the index
list materialised at loop entry, while `cooked` may shrink under it. -/
def mergeOuter : List Nat → List Record → Except UErr (List Record × Bool)
  | [], cooked => .ok (cooked, false)
  | i :: is, cooked =>
    match cooked.get? i with
    | none => .error .indexError
    | some ri =>
      if ri.dtype == "string" then
        match mergeInner i (List.range' (i + 1) (cooked.length - (i + 1)))
            cooked with
        | .error e => .error e
        | .ok (c1, f1) =>
          match mergeOuter is c1 with
          | .error e => .error e
          | .ok (c2, f2) => .ok (c2, f1 || f2)
      else mergeOuter is cooked

/-- One pass of the `while retry` body. -/
def mergePass (cooked : List Record) : Except UErr (List Record × Bool) :=
  mergeOuter (List.range cooked.length) cooked

/-- The complete extension-merge stage (`retry = True; while retry: ...`).
Terminates because a pass that reports a merge has deleted at least one
element. -/
def mergeExtensions (cooked : List Record) : Except UErr (List Record) :=
  match h : mergePass cooked with
  | .error e => .error e
  | .ok (c, false) => .ok c
  | .ok (c, true) => mergeExtensions c
termination_by cooked.length
decreasing_by
  have hInner : ∀ (js : List Nat) (i : Nat) (ck c' : List Record) (f : Bool),
      mergeInner i js ck = .ok (c', f) →
      c'.length ≤ ck.length ∧ (f = true → c'.length < ck.length) := by
    intro js
    induction js with
    | nil =>
      intro i ck c' f hmi
      simp only [mergeInner, Except.ok.injEq, Prod.mk.injEq] at hmi
      obtain ⟨h1, h2⟩ := hmi
      subst h1
      subst h2
      exact ⟨le_rfl, by intro hc; cases hc⟩
    | cons j js ih =>
      intro i ck c' f hmi
      simp only [mergeInner] at hmi
      cases hj : ck.get? j with
      | none => rw [hj] at hmi; cases hmi
      | some rj =>
        rw [hj] at hmi
        dsimp only at hmi
        by_cases hdt : (rj.dtype == "string") = true
        · rw [if_pos hdt] at hmi
          cases hi : ck.get? i with
          | none => rw [hi] at hmi; cases hmi
          | some ri =>
            rw [hi] at hmi
            dsimp only at hmi
            by_cases hnm : (ri.name == rj.name) = true
            · rw [if_pos hnm] at hmi
              cases hadd : pyIAdd ri.value rj.value with
              | error e => rw [hadd] at hmi; cases hmi
              | ok v =>
                rw [hadd] at hmi
                dsimp only at hmi
                cases hrec : mergeInner i js
                    ((ck.set i { ri with value := v }).eraseIdx j) with
                | error e => rw [hrec] at hmi; cases hmi
                | ok p =>
                  obtain ⟨c2, f2⟩ := p
                  rw [hrec] at hmi
                  dsimp only at hmi
                  have hj' : j < ck.length := by
                    have := List.get?_eq_some.mp hj
                    exact this.1
                  have hlen : ((ck.set i { ri with value := v }).eraseIdx
                      j).length = ck.length - 1 := by
                    rw [List.length_eraseIdx_of_lt (by simpa using hj')]
                    simp
                  have := (ih i _ c2 f2 hrec).1
                  rw [hlen] at this
                  have hc' : c' = c2 := by
                    cases hmi
                    rfl
                  subst hc'
                  constructor
                  · omega
                  · intro _
                    omega
            · rw [if_neg hnm] at hmi
              exact ih i ck c' f hmi
        · rw [if_neg hdt] at hmi
          exact ih i ck c' f hmi
  have hOuter : ∀ (il : List Nat) (ck c' : List Record) (f : Bool),
      mergeOuter il ck = .ok (c', f) →
      c'.length ≤ ck.length ∧ (f = true → c'.length < ck.length) := by
    intro il
    induction il with
    | nil =>
      intro ck c' f hmo
      simp only [mergeOuter, Except.ok.injEq, Prod.mk.injEq] at hmo
      obtain ⟨h1, h2⟩ := hmo
      subst h1
      subst h2
      exact ⟨le_rfl, by intro hc; cases hc⟩
    | cons i il ih =>
      intro ck c' f hmo
      simp only [mergeOuter] at hmo
      cases hi : ck.get? i with
      | none => rw [hi] at hmo; cases hmo
      | some ri =>
        rw [hi] at hmo
        dsimp only at hmo
        by_cases hdt : (ri.dtype == "string") = true
        · rw [if_pos hdt] at hmo
          cases hmi : mergeInner i
              (List.range' (i + 1) (ck.length - (i + 1))) ck with
          | error e => rw [hmi] at hmo; cases hmo
          | ok p =>
            obtain ⟨c1, f1⟩ := p
            rw [hmi] at hmo
            dsimp only at hmo
            cases hrec : mergeOuter il c1 with
            | error e => rw [hrec] at hmo; cases hmo
            | ok q =>
              obtain ⟨c2, f2⟩ := q
              rw [hrec] at hmo
              dsimp only at hmo
              have e1 := hInner _ i ck c1 f1 hmi
              have e2 := ih c1 c2 f2 hrec
              have hc' : c' = c2 ∧ f = (f1 || f2) := by
                cases hmo
                exact ⟨rfl, rfl⟩
              obtain ⟨hc', hf⟩ := hc'
              subst hc'
              subst hf
              constructor
              · omega
              · intro hor
                rcases Bool.or_eq_true_iff.mp hor with h | h
                · have := e1.2 h
                  omega
                · have := e2.2 h
                  omega
        · rw [if_neg hdt] at hmo
          exact ih ck c' f hmo
  exact (hOuter (List.range cooked.length) cooked c true h).2 rfl

/-- Bit `t` (0 = most significant) of the six bits the armoring loop appends
for character `c`: the source tests `(ch >> i) & 0x01` for
`i = 5, 4, ..., 0`. -/
def charBit (c : Char) (t : Nat) : Nat :=
  if intBit (armorInt c) (5 - t) then 1 else 0

/-- Every bit at position `L` or later is clear (the state of the byte array
ahead of the append cursor). -/
def trailClear (bytes : List Nat) (L : Nat) : Prop :=
  ∀ j, L ≤ j → bitAtL bytes j = 0

/-- The decoded record the extension-merge claim describes: exactly two
text-typed fields with the same name, `"ALFA"` first, `"BRAVO"` second (the
shape a type-21 message with a name extension would produce). -/
def cookedC9 : List Record :=
  [⟨"name", .str "ALFA", "string", "Name", none⟩,
   ⟨"name", .str "BRAVO", "string", "Name Extension", none⟩]

/-- Modelled from the spec: `binary.setBitVectorSize(BitVector(intVal=n), w)`
from the `aisutils.binary` helper module, which is not under `src/` — the
big-endian `w`-bit encoding of an in-range unsigned integer (spec §8:
extraction "agrees with a reference big-endian bit-extraction"). -/
def natToBV : Nat → Nat → List Bool
  | 0, _ => []
  | w + 1, n => decide (2 ^ w ≤ n) :: natToBV w (n % 2 ^ w)

/-- Modelled from the spec: `int(bv)` on a `BitVector` slice — the
big-endian unsigned value of the bits. -/
def bvToNat (l : List Bool) : Nat :=
  l.foldl (fun a b => 2 * a + b.toNat) 0

/-- Modelled from the spec: `binary.bvFromSignedInt(v, w)` — the `w`-bit
two's-complement encoding (spec §8: `signed = unsigned - 2^w` when the top
bit is set). -/
def intToBV (w : Nat) (v : Int) : List Bool :=
  natToBV w (v % (2 ^ w : Int)).toNat

/-- Modelled from the spec: `binary.signedIntFromBV` — two's-complement
reading of a bit vector. -/
def sIntFromBV (l : List Bool) : Int :=
  if 2 ^ (l.length - 1) ≤ bvToNat l then
    (bvToNat l : Int) - 2 ^ l.length
  else (bvToNat l : Int)

/-- Python `int(...)` on a `Decimal`: truncation toward zero. -/
def pyInt (q : ℚ) : Int :=
  if q < 0 then ⌈q⌉ else ⌊q⌋

/-- The parameter dictionary passed to `ais_msg_1.encode`, with every
optional field supplied (the claim's scope).  `SOG`, `COG`, `longitude` and
`latitude` are `Decimal` values, modelled as rationals. -/
structure Msg1Params where
  RepeatIndicator : Nat
  UserID : Nat
  NavigationStatus : Nat
  ROT : Int
  SOG : ℚ
  PositionAccuracy : Nat
  longitude : ℚ
  latitude : ℚ
  COG : ℚ
  TrueHeading : Nat
  TimeStamp : Nat
  RAIM : Bool
  state_syncstate : Nat
  state_slottimeout : Nat
  state_slotoffset : Nat

/-- `ais_msg_1.encode(params)` with all optional fields present: MessageID 1
in 6 bits, then each field at its declared width, `SOG`/`COG` scaled by 10,
`longitude`/`latitude` scaled by 600000 and truncated to int, four zero
regional-reserved bits, one zero spare bit, the RAIM flag as one bit, and
the three SOTDMA state fields; `binary.joinBV` concatenates. -/
def encode (p : Msg1Params) : List Bool :=
  natToBV 6 1 ++ natToBV 2 p.RepeatIndicator ++ natToBV 30 p.UserID ++
  natToBV 4 p.NavigationStatus ++ intToBV 8 p.ROT ++
  natToBV 10 (pyInt (p.SOG * 10)).toNat ++ natToBV 1 p.PositionAccuracy ++
  intToBV 28 (pyInt (p.longitude * 600000)) ++
  intToBV 27 (pyInt (p.latitude * 600000)) ++
  natToBV 12 (pyInt (p.COG * 10)).toNat ++ natToBV 9 p.TrueHeading ++
  natToBV 6 p.TimeStamp ++ natToBV 4 0 ++ natToBV 1 0 ++ [p.RAIM] ++
  natToBV 2 p.state_syncstate ++ natToBV 3 p.state_slottimeout ++
  natToBV 14 p.state_slotoffset

/-- Python slice `bv[a:b]`. -/
def bvSlice (l : List Bool) (a b : Nat) : List Bool :=
  (l.take b).drop a

/-- The dictionary `ais_msg_1.decode` returns. -/
structure Msg1Decoded where
  MessageID : Nat
  RepeatIndicator : Nat
  UserID : Nat
  NavigationStatus : Nat
  ROT : Int
  SOG : ℚ
  PositionAccuracy : Nat
  longitude : ℚ
  latitude : ℚ
  COG : ℚ
  TrueHeading : Nat
  TimeStamp : Nat
  RegionalReserved : Nat
  Spare : Nat
  RAIM : Bool
  state_syncstate : Nat
  state_slottimeout : Nat
  state_slotoffset : Nat

/-- `ais_msg_1.decode(bv)`: fixed slices of the 168-bit message, unsigned or
two's-complement, with `SOG`/`COG` divided by 10 and `longitude`/`latitude`
by 600000; `RegionalReserved` and `Spare` are returned as constant 0;
`RAIM` is `bool(int(bv[148:149]))`. -/
def decode (bv : List Bool) : Msg1Decoded where
  MessageID := 1
  RepeatIndicator := bvToNat (bvSlice bv 6 8)
  UserID := bvToNat (bvSlice bv 8 38)
  NavigationStatus := bvToNat (bvSlice bv 38 42)
  ROT := sIntFromBV (bvSlice bv 42 50)
  SOG := (bvToNat (bvSlice bv 50 60) : ℚ) / 10
  PositionAccuracy := bvToNat (bvSlice bv 60 61)
  longitude := (sIntFromBV (bvSlice bv 61 89) : ℚ) / 600000
  latitude := (sIntFromBV (bvSlice bv 89 116) : ℚ) / 600000
  COG := (bvToNat (bvSlice bv 116 128) : ℚ) / 10
  TrueHeading := bvToNat (bvSlice bv 128 137)
  TimeStamp := bvToNat (bvSlice bv 137 143)
  RegionalReserved := 0
  Spare := 0
  RAIM := bvToNat (bvSlice bv 148 149) != 0
  state_syncstate := bvToNat (bvSlice bv 149 151)
  state_slottimeout := bvToNat (bvSlice bv 151 154)
  state_slotoffset := bvToNat (bvSlice bv 154 168)

/-- A concrete in-range parameter set for the round-trip witness
(ship 366123456, status 3, ROT -2, 15.0 knots, 122.163... degrees West,
41.030... degrees North, course 345.0, heading 41, second 35). -/
def msg1Example : Msg1Params where
  RepeatIndicator := 0
  UserID := 366123456
  NavigationStatus := 3
  ROT := -2
  SOG := 150 / 10
  PositionAccuracy := 1
  longitude := -73297967 / 600000
  latitude := 24618276 / 600000
  COG := 3450 / 10
  TrueHeading := 41
  TimeStamp := 35
  RAIM := false
  state_syncstate := 0
  state_slottimeout := 3
  state_slotoffset := 1234

mutual

/-- `s.hasRejector n v`: some bitfield in `s` (looking through dispatch
subtypes) is named `n` and carries a validator that rejects `v`. -/
def Schema.hasRejector : Schema → String → Value → Bool
  | .nil, _, _ => false
  | .cons i r, n, v => i.hasRejector n v || r.hasRejector n v

/-- `hasRejector` on a single instruction. -/
def Inst.hasRejector : Inst → String → Value → Bool
  | .bitfield name _ _ _ _ validator _, n, v => name == n && rejects validator v
  | .spare _, _, _ => false
  | .dispatch _ subs _, n, v => subs.hasRejector n v

/-- `hasRejector` across a subtype list. -/
def SubSchemas.hasRejector : SubSchemas → String → Value → Bool
  | .nil, _, _ => false
  | .consNone r, n, v => r.hasRejector n v
  | .consSome s r, n, v => s.hasRejector n v || r.hasRejector n v

end

/-- A schema consisting only of validator-free unsigned bitfields, for the
truncation-tolerance analysis. -/
def fieldsSchema : List (String × Nat) → Schema
  | [] => .nil
  | (n, w) :: r => .cons (.bitfield n w "unsigned" none "" none none)
      (fieldsSchema r)

/-- The total declared width of such a schema. -/
def sumWidths : List (String × Nat) → Nat
  | [] => 0
  | (_, w) :: r => w + sumWidths r

/-- The names of the fields an interpreter walk starting at `offset` reaches
while the cursor is still strictly below `bitlen`; each reached field
advances the cursor by its full width whether or not its window fits. -/
def reachedNames : List (String × Nat) → Nat → Nat → List String
  | [], _, _ => []
  | (n, w) :: r, offset, bitlen =>
    if bitlen ≤ offset then [] else n :: reachedNames r (offset + w) bitlen

/-- `readAcc` succeeds whenever every read index is inside the byte array. -/
theorem readAcc_isSome (cnt : Nat) : ∀ (bytes : List Nat) (i acc : Nat),
    i + cnt ≤ bytes.length → ∃ v, readAcc bytes i cnt acc = some v := by
  induction cnt with
  | zero => intro bytes i acc _; exact ⟨acc, rfl⟩
  | succ n ih =>
    intro bytes i acc h
    have hi : i < bytes.length := by omega
    have hg : bytes.get? i = some (bytes.get ⟨i, hi⟩) := List.get?_eq_get hi
    have := ih bytes (i + 1) ((acc <<< 8) ||| bytes.get ⟨i, hi⟩) (by omega)
    obtain ⟨v, hv⟩ := this
    exact ⟨v, by simp only [readAcc, hg, hv]⟩

/-- A window that lies inside the byte array is extracted successfully,
and the extracted value carries at most `width` bits. -/
theorem ubits_isSome (bv : BitVector) (start width : Nat)
    (h : start + width ≤ 8 * bv.bits.length) :
    ∃ u, ubits bv start width = some u ∧ u < 2 ^ width := by
  have hhi : (start + width + 8 - 1) / 8 ≤ bv.bits.length := by omega
  have hlo : start / 8 ≤ (start + width + 8 - 1) / 8 := by
    apply Nat.div_le_div_right; omega
  obtain ⟨v, hv⟩ := readAcc_isSome ((start + width + 8 - 1) / 8 - start / 8)
    bv.bits (start / 8) 0 (by omega)
  refine ⟨(if (start + width) % 8 ≠ 0 then v >>> (8 - (start + width) % 8)
            else v) % 2 ^ width, ?_, ?_⟩
  · simp only [ubits, hv]
  · exact Nat.mod_lt _ (Nat.pos_pow_of_pos _ (by omega))

/-- C3: for every start offset and width `w` (widths of field descriptors are
positive) whose window lies inside the buffer, the signed extraction equals
the unsigned extraction `u` when the top bit of the window is 0, and equals
`u - 2 ^ w` when the top bit is 1; and, concretely, an 8-bit window holding
bits `10000000` reads as unsigned 128 and signed -128. -/
theorem sbits_twos_complement :
    (∀ (bv : BitVector) (start w : Nat), 0 < w → start + w ≤ bv.bitlen →
      bv.bitlen ≤ 8 * bv.bits.length →
      ∃ u, ubits bv start w = some u ∧ u < 2 ^ w ∧
        sbits bv start w =
          some (if u.testBit (w - 1) then (u : Int) - 2 ^ w else (u : Int)))
    ∧ ubits ⟨[128], 8⟩ 0 8 = some 128 ∧ sbits ⟨[128], 8⟩ 0 8 = some (-128) := by
  refine ⟨?_, by decide, by decide⟩
  intro bv start w hw hwin hinv
  obtain ⟨u, hu, hlt⟩ := ubits_isSome bv start w (by omega)
  refine ⟨u, hu, hlt, ?_⟩
  unfold sbits
  rw [hu]
  dsimp only
  have hand : u &&& (1 <<< (w - 1)) = (u.testBit (w - 1)).toNat * 2 ^ (w - 1) := by
    rw [Nat.shiftLeft_eq, one_mul, Nat.and_two_pow]
  by_cases hb : u.testBit (w - 1)
  · have hne : u &&& (1 <<< (w - 1)) ≠ 0 := by
      rw [hand, hb]
      simp
    rw [if_pos hne, hb, if_pos rfl]
    congr 1
    ring
  · rw [Bool.not_eq_true] at hb
    have hz : ¬ u &&& (1 <<< (w - 1)) ≠ 0 := by
      rw [hand, hb]; simp
    rw [if_neg hz, hb, if_neg Bool.false_ne_true]

/-- Witness for `sbits_twos_complement`: instantiate the universally
quantified part at the concrete 8-bit example buffer. -/
theorem sbits_twos_complement_witness :
    (0 : Nat) < 8 ∧
      ∃ u, ubits ⟨[128], 8⟩ 0 8 = some u ∧ u < 2 ^ 8 ∧
        sbits ⟨[128], 8⟩ 0 8 =
          some (if u.testBit 7 then (u : Int) - 2 ^ 8 else (u : Int)) :=
  ⟨by decide, sbits_twos_complement.1 ⟨[128], 8⟩ 0 8 (by decide) (by decide)
    (by decide)⟩

/-- `getD` with default 0 commutes with `drop`. -/
theorem getD_drop_zero (l : List Nat) : ∀ n k : Nat,
    (l.drop n).getD k 0 = l.getD (n + k) 0 := by
  induction l with
  | nil => intro n k; simp
  | cons a l ih =>
    intro n k
    cases n with
    | zero => simp
    | succ m => simp [Nat.succ_add, ih m k]

/-- C7, counterexample: on the one-byte buffer `11110000` with bit length 8,
the raw tail taken at bit offset 4 is the byte-aligned slice
`⟨[240], 4⟩`, whose bit 0 is bit 0 — not bit 4 — of the original buffer:
the claimed window equality fails for unaligned start offsets. -/
theorem raw_tail_counterexample :
    rawSlice ⟨[240], 8⟩ 4 = ⟨[240], 4⟩ ∧
    ¬ (∀ i, i < (8 : Nat) - 4 →
        bitAt (rawSlice ⟨[240], 8⟩ 4) i = bitAt ⟨[240], 8⟩ (4 + i)) := by
  constructor
  · rfl
  · intro h
    have := h 0 (by decide)
    revert this
    decide

/-- C7, amended: the raw-tail view keeps `bitlen - start` as its bit length,
but its data starts at the enclosing byte boundary: bit `i` of the view is
bit `8 * (start / 8) + i` of the original buffer.  Only when `start` is a
multiple of 8 does this coincide with bit `start + i`. -/
theorem raw_tail_byte_aligned (bv : BitVector) (start i : Nat)
    (_ : i < bv.bitlen - start) :
    (rawSlice bv start).bitlen = bv.bitlen - start ∧
    bitAt (rawSlice bv start) i = bitAt bv (8 * (start / 8) + i) ∧
    (start % 8 = 0 → bitAt (rawSlice bv start) i = bitAt bv (start + i)) := by
  have key : bitAt (rawSlice bv start) i = bitAt bv (8 * (start / 8) + i) := by
    show bitAtL (bv.bits.drop (start / 8)) i = bitAtL bv.bits (8 * (start / 8) + i)
    unfold bitAtL
    rw [getD_drop_zero]
    have h1 : start / 8 + i / 8 = (8 * (start / 8) + i) / 8 := by omega
    have h2 : i % 8 = (8 * (start / 8) + i) % 8 := by omega
    rw [h1, h2]
  refine ⟨rfl, key, fun h8 => ?_⟩
  rw [key]
  have : 8 * (start / 8) = start := by omega
  rw [this]

/-- Witness for `raw_tail_byte_aligned` at a concrete aligned input. -/
theorem raw_tail_byte_aligned_witness :
    (2 : Nat) < 8 - 0 ∧
    ((rawSlice ⟨[240], 8⟩ 0).bitlen = 8 - 0 ∧
      bitAt (rawSlice ⟨[240], 8⟩ 0) 2 = bitAt ⟨[240], 8⟩ (8 * (0 / 8) + 2) ∧
      ((0 : Nat) % 8 = 0 → bitAt (rawSlice ⟨[240], 8⟩ 0) 2 = bitAt ⟨[240], 8⟩ (0 + 2))) :=
  ⟨by decide, raw_tail_byte_aligned ⟨[240], 8⟩ 0 2 (by decide)⟩

/-- If the cursor has reached or passed the buffer's bit length, the
instruction loop stops immediately: no further records, no error. -/
theorem unpackLoop_stop (data : BitVector) (offset : Nat) (values : Values)
    (lastVal : Option Value) (s : Schema) (hg : data.bitlen ≤ offset) :
    unpackLoop data offset values lastVal s = .ok (values, []) := by
  cases s with
  | nil => rfl
  | cons i r =>
    rw [unpackLoop.eq_def]
    exact if_pos hg

/-- C1, counterexample: in `schemaC1` the instruction `b` follows a dispatch
node whose sub-schema (one 6-bit field) ends at bit offset 12, where the
buffer holds the six-bit group 9.  The claim therefore requires the record
for `b` to hold 9; the interpreter instead decodes `b` at bit offset 6 (the
offset at which the dispatch node was encountered) and records 5.  It also
returns no next offset at all: the result is just the records (with the
threaded dictionary of the embedding). -/
theorem dispatch_cursor_counterexample :
    aivdm_unpack dataC1 0 [] schemaC1 =
      .ok ([("b", .int 5), ("x", .int 5), ("a", .int 0)],
        [⟨"a", .int 0, "unsigned", "A", none⟩,
         ⟨"x", .int 5, "unsigned", "X", none⟩,
         ⟨"b", .int 5, "unsigned", "B", none⟩]) ∧
    ubits dataC1 12 6 = some 9 ∧ ubits dataC1 6 6 = some 5 := by
  decide

/-- C1, amended: `aivdm_unpack` returns only the cooked records (no next
offset), and a dispatch node does not advance the cursor: the records of the
selected sub-schema are spliced in place, and the remaining instructions are
processed at the same offset at which the dispatch node was encountered. -/
theorem dispatch_keeps_cursor (data : BitVector) (offset : Nat)
    (values : Values) (lastVal : Option Value) (fieldname : String)
    (subtypes : SubSchemas) (compute : Value → Value) (rest : Schema) :
    unpackLoop data offset values lastVal
        (.cons (.dispatch fieldname subtypes compute) rest) =
      match unpackLoop data offset values lastVal
          (.cons (.dispatch fieldname subtypes compute) .nil) with
      | .error e => .error e
      | .ok (values1, recs) =>
        match unpackLoop data offset values1 lastVal rest with
        | .error e => .error e
        | .ok (values2, recs2) => .ok (values2, recs ++ recs2) := by
  by_cases hg : data.bitlen ≤ offset
  · rw [unpackLoop_stop data offset values lastVal _ hg,
      unpackLoop_stop data offset values lastVal _ hg]
    dsimp only
    rw [unpackLoop_stop data offset values lastVal rest hg]
    rfl
  · simp only [unpackLoop, if_neg hg]
    cases values.lookup fieldname with
    | none => rfl
    | some v =>
      dsimp only
      cases compute v with
      | str s => rfl
      | vec b => rfl
      | int idx =>
        dsimp only
        by_cases hj :
            (0 : Int) ≤ if idx < 0 then idx + (SubSchemas.len subtypes : Int)
              else idx
        · rw [if_pos hj, if_pos hj]
          cases unpackSub data offset values subtypes
              (if idx < 0 then idx + (SubSchemas.len subtypes : Int)
                else idx).toNat with
          | error e => rfl
          | ok p =>
            cases p with
            | mk v1 r1 =>
              dsimp only [unpackLoop]
              cases unpackLoop data offset v1 lastVal rest with
              | error e => rfl
              | ok q => cases q with
                | mk v2 r2 => simp
        · rw [if_neg hj, if_neg hj]

/-- The instruction loop on a schema of plain unsigned fields returns
exactly the records of the fields reached while the cursor is strictly below
the buffer's bit length, provided the byte array covers the declared
windows. -/
theorem unpack_fields_reached (fs : List (String × Nat)) (data : BitVector) :
    ∀ (offset : Nat) (values : Values) (lastVal : Option Value),
    offset + sumWidths fs ≤ 8 * data.bits.length →
    ∃ vals recs,
      unpackLoop data offset values lastVal (fieldsSchema fs) = .ok (vals, recs)
      ∧ recs.map Record.name = reachedNames fs offset data.bitlen := by
  induction fs with
  | nil => intro offset values lastVal _; exact ⟨values, [], rfl, rfl⟩
  | cons p r ih =>
    obtain ⟨n, w⟩ := p
    intro offset values lastVal hcap
    have hcap' : offset + w + sumWidths r ≤ 8 * data.bits.length := by
      simp only [sumWidths] at hcap; omega
    by_cases hg : data.bitlen ≤ offset
    · exact ⟨values, [], unpackLoop_stop data offset values lastVal _ hg,
        by simp [reachedNames, hg]⟩
    · obtain ⟨u, hu, _⟩ := ubits_isSome data offset w (by omega)
      obtain ⟨vals, recs, hrec, hnames⟩ :=
        ih (offset + w) ((n, .int u) :: values) (some (.int u)) (by omega)
      refine ⟨vals, ⟨n, .int u, "unsigned", "", none⟩ :: recs, ?_, ?_⟩
      · rw [fieldsSchema, unpackLoop.eq_def]
        dsimp only
        rw [if_neg hg]
        rw [show extractVal data offset lastVal "unsigned" w = .ok (.int u) by
          simp [extractVal, hu]]
        dsimp only
        rw [show rejects none (.int u) = false from rfl,
          if_neg Bool.false_ne_true, hrec]
      · simp [reachedNames, hg, hnames]

/-- C2, counterexample: a one-field schema of declared width 8 against a
6-bit buffer.  The field's window `[0, 8)` extends past the bit length, so
by the claim it must not appear; the interpreter nevertheless decodes it in
full (the guard only checks the start offset) and returns its record. -/
theorem truncation_window_counterexample :
    aivdm_unpack ⟨[165], 6⟩ 0 [] (fieldsSchema [("f", 8)]) =
      .ok ([("f", .int 165)], [⟨"f", .int 165, "unsigned", "", none⟩]) ∧
    (6 : Nat) < 0 + 8 := by
  decide

/-- C2, amended: for a schema of validator-free unsigned fields and a buffer
whose bit length is smaller than the schema's total declared width (with the
byte array covering the declared windows), unpacking from offset 0 succeeds
and returns exactly the fields whose start offset lies strictly before the
bit length; a reached field is decoded whole even when its window extends
past the bit length. -/
theorem truncation_tolerance_amended (fs : List (String × Nat))
    (data : BitVector) (_ : data.bitlen < sumWidths fs)
    (hcap : sumWidths fs ≤ 8 * data.bits.length) :
    ∃ vals recs,
      aivdm_unpack data 0 [] (fieldsSchema fs) = .ok (vals, recs) ∧
      recs.map Record.name = reachedNames fs 0 data.bitlen :=
  unpack_fields_reached fs data 0 [] none (by omega)

/-- Witness for `truncation_tolerance_amended`: two 8-bit fields against a
6-bit buffer; only the first field (start offset 0 < 6) is returned. -/
theorem truncation_tolerance_amended_witness :
    ((6 : Nat) < sumWidths [("f", 8), ("g", 8)] ∧
      sumWidths [("f", 8), ("g", 8)] ≤ 8 * 2) ∧
    ∃ vals recs,
      aivdm_unpack ⟨[165, 0], 6⟩ 0 [] (fieldsSchema [("f", 8), ("g", 8)]) =
        .ok (vals, recs) ∧
      recs.map Record.name = reachedNames [("f", 8), ("g", 8)] 0 6 :=
  ⟨⟨by decide, by decide⟩,
    truncation_tolerance_amended [("f", 8), ("g", 8)] ⟨[165, 0], 6⟩
      (by decide) (by decide)⟩

/-- Field extraction itself never raises a validation error. -/
theorem extractVal_ne_validation (data : BitVector) (offset : Nat)
    (lastVal : Option Value) (dtype : String) (w : Nat) (n : String)
    (v : Value) : extractVal data offset lastVal dtype w ≠
      .error (.validation n v) := by
  unfold extractVal
  split_ifs
  · cases ubits data offset w <;> simp
  · cases sbits data offset w <;> simp
  · cases sixbitText data offset w <;> simp
  · simp
  · cases lastVal <;> simp

mutual

/-- A validation error coming out of the instruction loop always originates
from a bitfield of the schema whose name is the error's field name and whose
validator rejects the error's value. -/
theorem unpackLoop_validation_rejector (data : BitVector) (offset : Nat)
    (values : Values) (lastVal : Option Value) (s : Schema) (n : String)
    (v : Value)
    (h : unpackLoop data offset values lastVal s = .error (.validation n v)) :
    s.hasRejector n v = true := by
  cases s with
  | nil => exact absurd h (by simp [unpackLoop])
  | cons i r =>
    rw [unpackLoop.eq_def] at h
    dsimp only at h
    by_cases hg : data.bitlen ≤ offset
    · rw [if_pos hg] at h; exact absurd h (by simp)
    · rw [if_neg hg] at h
      cases i with
      | spare w =>
        dsimp only at h
        have := unpackLoop_validation_rejector data (offset + w) values
          lastVal r n v h
        simp [Schema.hasRejector, Inst.hasRejector, this]
      | dispatch fieldname subtypes compute =>
        dsimp only at h
        cases hq : values.lookup fieldname with
        | none => rw [hq] at h; exact absurd h (by simp)
        | some vd =>
          rw [hq] at h
          dsimp only at h
          cases hc : compute vd with
          | str s => rw [hc] at h; exact absurd h (by simp)
          | vec b => rw [hc] at h; exact absurd h (by simp)
          | int idx =>
            rw [hc] at h
            dsimp only at h
            by_cases hj : (0 : Int) ≤
                (if idx < 0 then idx + (SubSchemas.len subtypes : Int) else idx)
            · rw [if_pos hj] at h
              cases hsub : unpackSub data offset values subtypes
                  (if idx < 0 then idx + (SubSchemas.len subtypes : Int)
                    else idx).toNat with
              | error e =>
                rw [hsub] at h
                dsimp only at h
                have he : e = .validation n v := by
                  cases h
                  rfl
                have := unpackSub_validation_rejector data offset values
                  subtypes _ n v (he ▸ hsub)
                simp [Schema.hasRejector, Inst.hasRejector, this]
              | ok p =>
                obtain ⟨v1, r1⟩ := p
                rw [hsub] at h
                dsimp only at h
                cases hrest : unpackLoop data offset v1 lastVal r with
                | error e =>
                  rw [hrest] at h
                  dsimp only at h
                  have he : e = .validation n v := by
                    cases h
                    rfl
                  have := unpackLoop_validation_rejector data offset v1
                    lastVal r n v (he ▸ hrest)
                  simp [Schema.hasRejector, Inst.hasRejector, this]
                | ok q =>
                  rw [hrest] at h
                  exact absurd h (by cases q; simp)
            · rw [if_neg hj] at h; exact absurd h (by simp)
      | bitfield name w dtype oob legend validator formatter =>
        dsimp only at h
        cases hex : extractVal data offset lastVal dtype w with
        | error e =>
          rw [hex] at h
          dsimp only at h
          have he : e = .validation n v := by
            cases h
            rfl
          exact absurd (he ▸ hex)
            (extractVal_ne_validation data offset lastVal dtype w n v)
        | ok value =>
          rw [hex] at h
          dsimp only at h
          by_cases hrej : rejects validator value = true
          · rw [if_pos hrej] at h
            have h1 : name = n ∧ value = v := by
              cases h
              exact ⟨rfl, rfl⟩
            obtain ⟨h1, h2⟩ := h1
            subst h1
            subst h2
            simp [Schema.hasRejector, Inst.hasRejector, hrej]
          · rw [if_neg hrej] at h
            cases hrest : unpackLoop data (offset + w) ((name, value) :: values)
                (some value) r with
            | error e =>
              rw [hrest] at h
              dsimp only at h
              have he : e = .validation n v := by
                cases h
                rfl
              have := unpackLoop_validation_rejector data (offset + w)
                ((name, value) :: values) (some value) r n v (he ▸ hrest)
              simp [Schema.hasRejector, Inst.hasRejector, this]
            | ok q =>
              rw [hrest] at h
              exact absurd h (by cases q; simp)

/-- Same property for the subtype walk. -/
theorem unpackSub_validation_rejector (data : BitVector) (offset : Nat)
    (values : Values) (subs : SubSchemas) (k : Nat) (n : String) (v : Value)
    (h : unpackSub data offset values subs k = .error (.validation n v)) :
    subs.hasRejector n v = true := by
  cases subs with
  | nil => exact absurd h (by simp [unpackSub])
  | consNone r =>
    cases k with
    | zero => exact absurd h (by simp [unpackSub])
    | succ m =>
      have := unpackSub_validation_rejector data offset values r m n v h
      simp [SubSchemas.hasRejector, this]
  | consSome s r =>
    cases k with
    | zero =>
      have := unpackLoop_validation_rejector data offset values none s n v h
      simp [SubSchemas.hasRejector, this]
    | succ m =>
      have := unpackSub_validation_rejector data offset values r m n v h
      simp [SubSchemas.hasRejector, this]

end

/-- A reached bitfield whose validator rejects the extracted value aborts
the whole decode with a validation error carrying exactly that field's name
and the rejected value — no records are returned. -/
theorem unpackLoop_validator_abort (data : BitVector) (offset : Nat)
    (values : Values) (lastVal : Option Value) (name : String) (w : Nat)
    (dtype : String) (oob : Option Int) (legend : String)
    (p : Value → Bool) (fmtr : Option Formatter) (rest : Schema) (v : Value)
    (hg : ¬ data.bitlen ≤ offset)
    (hex : extractVal data offset lastVal dtype w = .ok v)
    (hrej : p v = false) :
    unpackLoop data offset values lastVal
        (.cons (.bitfield name w dtype oob legend (some p) fmtr) rest) =
      .error (.validation name v) := by
  rw [unpackLoop.eq_def]
  dsimp only
  rw [if_neg hg, hex]
  dsimp only
  rw [show rejects (some p) v = true by simp [rejects, hrej]]
  rfl

/-- A reached bitfield whose validator accepts the extracted value emits its
record and decoding continues behind it. -/
theorem unpackLoop_validator_accept (data : BitVector) (offset : Nat)
    (values : Values) (lastVal : Option Value) (name : String) (w : Nat)
    (dtype : String) (oob : Option Int) (legend : String)
    (p : Value → Bool) (fmtr : Option Formatter) (rest : Schema) (v : Value)
    (hg : ¬ data.bitlen ≤ offset)
    (hex : extractVal data offset lastVal dtype w = .ok v)
    (hacc : p v = true) :
    unpackLoop data offset values lastVal
        (.cons (.bitfield name w dtype oob legend (some p) fmtr) rest) =
      match unpackLoop data (offset + w) ((name, v) :: values) (some v) rest with
      | .error e => .error e
      | .ok (values2, recs) =>
        .ok (values2, ⟨name, v, dtype, legend, fmtr⟩ :: recs) := by
  rw [unpackLoop.eq_def]
  dsimp only
  rw [if_neg hg, hex]
  dsimp only
  rw [show rejects (some p) v = false by simp [rejects, hacc]]
  rw [if_neg Bool.false_ne_true]

/-- C4: (1) a rejecting validator fails the whole decode with a validation
error carrying exactly the field's name and the rejected value, and no
partial record is returned; (2) an accepting validator lets the field's
record through and decoding continue; (3) every validation error the
interpreter can return originates from a schema bitfield of that name whose
validator rejects that value — so if every encountered validator accepts,
no validation error is raised. -/
theorem validation_abort_exact :
    (∀ (data : BitVector) (offset : Nat) (values : Values)
      (lastVal : Option Value) (name : String) (w : Nat) (dtype : String)
      (oob : Option Int) (legend : String) (p : Value → Bool)
      (fmtr : Option Formatter) (rest : Schema) (v : Value),
      ¬ data.bitlen ≤ offset →
      extractVal data offset lastVal dtype w = .ok v →
      p v = false →
      unpackLoop data offset values lastVal
          (.cons (.bitfield name w dtype oob legend (some p) fmtr) rest) =
        .error (.validation name v))
    ∧ (∀ (data : BitVector) (offset : Nat) (values : Values)
      (lastVal : Option Value) (name : String) (w : Nat) (dtype : String)
      (oob : Option Int) (legend : String) (p : Value → Bool)
      (fmtr : Option Formatter) (rest : Schema) (v : Value),
      ¬ data.bitlen ≤ offset →
      extractVal data offset lastVal dtype w = .ok v →
      p v = true →
      unpackLoop data offset values lastVal
          (.cons (.bitfield name w dtype oob legend (some p) fmtr) rest) =
        match unpackLoop data (offset + w) ((name, v) :: values) (some v)
            rest with
        | .error e => .error e
        | .ok (values2, recs) =>
          .ok (values2, ⟨name, v, dtype, legend, fmtr⟩ :: recs))
    ∧ (∀ (data : BitVector) (offset : Nat) (values : Values)
      (instructions : Schema) (n : String) (v : Value),
      aivdm_unpack data offset values instructions =
        .error (.validation n v) →
      instructions.hasRejector n v = true) :=
  ⟨unpackLoop_validator_abort, unpackLoop_validator_accept,
    fun data offset values instructions n v h =>
      unpackLoop_validation_rejector data offset values none instructions n v h⟩

/-- Witness for `validation_abort_exact`: a 4-bit `epfd`-style field whose
validator admits 0..8, against a buffer whose first four bits decode to 12,
aborts with exactly that name and value. -/
theorem validation_abort_exact_witness :
    unpackLoop ⟨[192], 8⟩ 0 [] none
        (.cons (.bitfield "epfd" 4 "unsigned" none "EPFD"
          (some (fun v => match v with
            | .int n => decide (0 ≤ n ∧ n ≤ 8)
            | _ => false)) none) .nil) =
      .error (.validation "epfd" (.int 12)) :=
  validation_abort_exact.1 ⟨[192], 8⟩ 0 [] none "epfd" 4 "unsigned" none
    "EPFD" (fun v => match v with
      | .int n => decide (0 ≤ n ∧ n ≤ 8)
      | _ => false) none .nil (.int 12) (by decide) (by decide) (by decide)

/-- C6: (1) a line with fragment number `"1"` resets the accumulator to the
line's payload segment; (2) any other fragment number appends the segment;
in both cases the accumulated payload is emitted exactly when the fragment
number is not below the expected count (string comparison); (3) feeding
`(expect 2, number 1, "A")` then `(expect 2, number 2, "B")` yields exactly
one assembled payload `"AB"`, and feeding only fragment 1 of 2 yields
none. -/
theorem fragment_reassembly :
    (∀ (payload line expect seg : String),
      startsWithHash line = false →
      (pySplit line).get? 1 = some expect →
      (pySplit line).get? 2 = some "1" →
      (pySplit line).get? 5 = some seg →
      reasmStep payload line =
        .ok (seg, if pyStrLt "1" expect then none else some seg))
    ∧ (∀ (payload line expect fragment seg : String),
      startsWithHash line = false →
      (pySplit line).get? 1 = some expect →
      (pySplit line).get? 2 = some fragment →
      fragment ≠ "1" →
      (pySplit line).get? 5 = some seg →
      reasmStep payload line =
        .ok (payload ++ seg,
          if pyStrLt fragment expect then none else some (payload ++ seg)))
    ∧ assembledPayloads "" ["x,2,1,a,b,A", "x,2,2,a,b,B"] = .ok ["AB"]
    ∧ assembledPayloads "" ["x,2,1,a,b,A"] = .ok [] := by
  refine ⟨?_, ?_, by decide, by decide⟩
  · intro payload line expect seg hc h1 h2 h5
    simp only [reasmStep, hc, Bool.false_eq_true, if_false, h1, h2, h5]
    simp only [beq_self_eq_true, if_true, String.empty_append]
    by_cases hlt : pyStrLt "1" expect = true <;> simp [hlt]
  · intro payload line expect fragment seg hc h1 h2 hne h5
    simp only [reasmStep, hc, Bool.false_eq_true, if_false, h1, h2, h5]
    rw [show (fragment == "1") = false by
      exact beq_eq_false_iff_ne.mpr hne]
    simp only [Bool.false_eq_true, if_false]
    by_cases hlt : pyStrLt fragment expect = true <;> simp [hlt]

/-- Witness for `fragment_reassembly` at a concrete fragment-1 line. -/
theorem fragment_reassembly_witness :
    reasmStep "OLD" "x,2,1,a,b,A" =
      .ok ("A", if pyStrLt "1" "2" then none else some "A") :=
  fragment_reassembly.1 "OLD" "x,2,1,a,b,A" "2" "A" (by decide) (by decide)
    (by decide) (by decide)

/-- C10: the master dispatch list has 25 entries, and every integer value
accepted by the top-level message-type validator (`0 < n ≤ 24`, `n ≠ 23`,
passed unchanged through the identity `compute`) indexes a real sub-schema:
the `None` placeholders at indices 0 and 23 are never selected. -/
theorem master_dispatch_total :
    SubSchemas.len aivdmSubtypes = 25 ∧
    ∀ n : Int, msgtypeValidator (.int n) = true →
      0 ≤ n ∧ n < 25 ∧ aivdmSubtypes.isSomeAt n.toNat = true := by
  refine ⟨by decide, ?_⟩
  intro n h
  have hb : 0 < n ∧ n ≤ 24 ∧ n ≠ 23 := by
    have := of_decide_eq_true h
    exact this
  obtain ⟨h1, h2, h3⟩ := hb
  refine ⟨by omega, by omega, ?_⟩
  interval_cases n
  all_goals first
  | decide
  | exact absurd rfl h3

/-- Witness for `master_dispatch_total` at message type 1. -/
theorem master_dispatch_total_witness :
    msgtypeValidator (.int 1) = true ∧
    (0 ≤ (1 : Int) ∧ (1 : Int) < 25 ∧
      aivdmSubtypes.isSomeAt (1 : Int).toNat = true) :=
  ⟨by decide, master_dispatch_total.2 1 (by decide)⟩

/-- C9: on the claimed two-field input the extension merge does concatenate
the values (`mergeInner` briefly holds the single merged `"ALFABRAVO"`
field), but the pass then crashes with `IndexError`: the `for` ranges were
materialised before the deletion, so the outer loop's next step indexes past
the end of the shrunk list.  The merged record is never returned — the code
contradicts the stated intent of its own comment (`concatenate the values of
the later ones to the first, then delete those tuples`, marked
`FIXME: Code is untested`). -/
theorem extension_merge_index_error :
    mergeExtensions cookedC9 = .error .indexError ∧
    mergeInner 0 [1] cookedC9 =
      .ok ([⟨"name", .str "ALFABRAVO", "string", "Name", none⟩], true) := by
  constructor
  · have hpc : mergePass cookedC9 = .error .indexError := by decide
    rw [mergeExtensions]
    split
    · next e he =>
      rw [hpc] at he
      injection he with h
      rw [← h]
    · next c he =>
      rw [hpc] at he
      exact Except.noConfusion he
    · next c he =>
      rw [hpc] at he
      exact Except.noConfusion he
  · decide

/-- `bitAtL` through `Nat.testBit`. -/
theorem bitAtL_eq_testBit (bytes : List Nat) (j : Nat) :
    bitAtL bytes j = ((bytes.getD (j / 8) 0).testBit (7 - j % 8)).toNat := by
  unfold bitAtL
  generalize bytes.getD (j / 8) 0 = x
  rw [Nat.and_one_is_mod, Nat.shiftRight_eq_div_pow, Nat.testBit_to_div_mod]
  rcases Nat.mod_two_eq_zero_or_one (x / 2 ^ (7 - j % 8)) with h | h <;>
    simp [h]

/-- `List.getD` with default through `List.get?`. -/
theorem getD_eq_get? (l : List Nat) (n : Nat) :
    l.getD n 0 = (l.get? n).getD 0 := by
  induction l generalizing n with
  | nil => simp
  | cons a l ih =>
    cases n with
    | zero => simp
    | succ m => simp [ih]

/-- One `appendBit` step: the bit length advances, the byte array keeps its
length, every other bit position is untouched, and position `L` now holds
the appended bit (given that the bits from `L` on were clear). -/
theorem appendBit_spec (bytes : List Nat) (L : Nat) (b : Bool)
    (hlen : L < 8 * bytes.length) (htc : trailClear bytes L) :
    (appendBit (bytes, L) b).2 = L + 1 ∧
    (appendBit (bytes, L) b).1.length = bytes.length ∧
    (∀ j, j ≠ L → bitAtL (appendBit (bytes, L) b).1 j = bitAtL bytes j) ∧
    bitAtL (appendBit (bytes, L) b).1 L = (if b then 1 else 0) := by
  cases b with
  | false =>
    refine ⟨rfl, rfl, fun j _ => rfl, ?_⟩
    simpa using htc L le_rfl
  | true =>
    have hidx : L / 8 < bytes.length := by omega
    refine ⟨rfl, by simp [appendBit], ?_, ?_⟩
    · intro j hj
      show bitAtL (bytes.set (L / 8)
        ((bytes.getD (L / 8) 0) ||| (1 <<< (7 - L % 8)))) j = bitAtL bytes j
      rw [bitAtL_eq_testBit, bitAtL_eq_testBit]
      by_cases hb : j / 8 = L / 8
      · rw [hb, getD_eq_get?, List.get?_set_eq_of_lt _ hidx]
        simp only [Option.getD_some]
        rw [Nat.shiftLeft_eq, one_mul, Nat.testBit_or]
        have hne : 7 - L % 8 ≠ 7 - j % 8 := by omega
        rw [Nat.testBit_two_pow_of_ne hne]
        simp
      · rw [getD_eq_get?,
          List.get?_set_ne _ _ (show L / 8 ≠ j / 8 from fun hc => hb hc.symm),
          ← getD_eq_get?]
    · show bitAtL (bytes.set (L / 8)
        ((bytes.getD (L / 8) 0) ||| (1 <<< (7 - L % 8)))) L = 1
      rw [bitAtL_eq_testBit]
      rw [getD_eq_get?, List.get?_set_eq_of_lt _ hidx]
      simp only [Option.getD_some]
      rw [Nat.shiftLeft_eq, one_mul, Nat.testBit_or, Nat.testBit_two_pow_self]
      simp

/-- Appending a list of bits starting at cursor `L`: the cursor advances by
the number of bits, earlier bits are untouched, position `L + t` holds bit
`t`, and the tail stays clear. -/
theorem appendBits_spec : ∀ (bs : List Bool) (bytes : List Nat) (L : Nat),
    L + bs.length ≤ 8 * bytes.length → trailClear bytes L →
    (bs.foldl appendBit (bytes, L)).2 = L + bs.length ∧
    (bs.foldl appendBit (bytes, L)).1.length = bytes.length ∧
    (∀ j, j < L →
      bitAtL (bs.foldl appendBit (bytes, L)).1 j = bitAtL bytes j) ∧
    (∀ t, t < bs.length →
      bitAtL (bs.foldl appendBit (bytes, L)).1 (L + t) =
        (bs.getD t false).toNat) ∧
    trailClear (bs.foldl appendBit (bytes, L)).1 (L + bs.length) := by
  intro bs
  induction bs with
  | nil =>
    intro bytes L _ htc
    exact ⟨rfl, rfl, fun _ _ => rfl, fun t ht => by simp at ht,
      by simpa using htc⟩
  | cons b bs ih =>
    intro bytes L hlen htc
    obtain ⟨h2, h1, hpres, hset⟩ :=
      appendBit_spec bytes L b (by simp at hlen; omega) htc
    set st := appendBit (bytes, L) b with hst
    obtain ⟨bytes1, L1⟩ := st
    simp only at h2 h1 hpres hset
    subst h2
    have htc1 : trailClear bytes1 (L + 1) := by
      intro j hj
      rw [hpres j (by omega)]
      exact htc j (by omega)
    have hcap1 : (L + 1) + bs.length ≤ 8 * bytes1.length := by
      rw [h1]; simp at hlen; omega
    obtain ⟨g2, g1, gpres, gbits, gtc⟩ := ih bytes1 (L + 1) hcap1 htc1
    have hfold : (b :: bs).foldl appendBit (bytes, L) =
        bs.foldl appendBit (bytes1, L + 1) := by
      simp [List.foldl, ← hst]
    rw [hfold]
    refine ⟨by rw [g2]; simp; omega, by rw [g1, h1], ?_, ?_, ?_⟩
    · intro j hj
      rw [gpres j (by omega), hpres j (by omega)]
    · intro t ht
      cases t with
      | zero =>
        rw [show L + 0 = L from rfl, gpres L (by omega), hset]
        cases b <;> simp
      | succ u =>
        have := gbits u (by simp at ht; omega)
        rw [show L + (u + 1) = (L + 1) + u by omega]
        rw [this]
        simp
    · intro j hj
      apply gtc
      simp at hj ⊢
      omega

/-- `Bool.toNat` as an if-expression. -/
theorem toNat_eq_if (b : Bool) : b.toNat = if b then 1 else 0 := by
  cases b <;> rfl

/-- `sixStep` is `appendBit` folded over the six armor bits, most
significant first. -/
theorem sixStep_eq_appendBits (st : List Nat × Nat) (c : Char) :
    sixStep st c =
      [intBit (armorInt c) 5, intBit (armorInt c) 4, intBit (armorInt c) 3,
       intBit (armorInt c) 2, intBit (armorInt c) 1,
       intBit (armorInt c) 0].foldl appendBit st := by
  simp [sixStep, List.foldl]

/-- One character's armoring step: six bits appended MSB-first. -/
theorem sixStep_spec (bytes : List Nat) (L : Nat) (c : Char)
    (hlen : L + 6 ≤ 8 * bytes.length) (htc : trailClear bytes L) :
    (sixStep (bytes, L) c).2 = L + 6 ∧
    (sixStep (bytes, L) c).1.length = bytes.length ∧
    (∀ j, j < L → bitAtL (sixStep (bytes, L) c).1 j = bitAtL bytes j) ∧
    (∀ t, t < 6 → bitAtL (sixStep (bytes, L) c).1 (L + t) = charBit c t) ∧
    trailClear (sixStep (bytes, L) c).1 (L + 6) := by
  rw [sixStep_eq_appendBits]
  obtain ⟨h2, h1, hpres, hbits, htc'⟩ :=
    appendBits_spec [intBit (armorInt c) 5, intBit (armorInt c) 4,
      intBit (armorInt c) 3, intBit (armorInt c) 2, intBit (armorInt c) 1,
      intBit (armorInt c) 0] bytes L (by simpa using hlen) htc
  refine ⟨by simpa using h2, h1, hpres, ?_, by simpa using htc'⟩
  intro t ht
  have hb := hbits t (by simpa using ht)
  rw [hb, toNat_eq_if]
  interval_cases t <;> rfl

/-- Folding the armoring step over a character list: six bits per character,
MSB-first, at consecutive positions. -/
theorem foldSix_spec : ∀ (cs : List Char) (bytes : List Nat) (L : Nat),
    L + 6 * cs.length ≤ 8 * bytes.length → trailClear bytes L →
    (cs.foldl sixStep (bytes, L)).2 = L + 6 * cs.length ∧
    (cs.foldl sixStep (bytes, L)).1.length = bytes.length ∧
    (∀ j, j < L →
      bitAtL (cs.foldl sixStep (bytes, L)).1 j = bitAtL bytes j) ∧
    (∀ k t, k < cs.length → t < 6 →
      bitAtL (cs.foldl sixStep (bytes, L)).1 (L + (6 * k + t)) =
        charBit (cs.getD k 'A') t) ∧
    trailClear (cs.foldl sixStep (bytes, L)).1 (L + 6 * cs.length) := by
  intro cs
  induction cs with
  | nil =>
    intro bytes L _ htc
    exact ⟨by simp, rfl, fun _ _ => rfl, fun k t hk => by simp at hk,
      by simpa using htc⟩
  | cons c cs ih =>
    intro bytes L hcap htc
    obtain ⟨h2, h1, hpres, hbits, htc1⟩ :=
      sixStep_spec bytes L c (by simp at hcap; omega) htc
    set st := sixStep (bytes, L) c with hst
    obtain ⟨bytes1, L1⟩ := st
    simp only at h2 h1 hpres hbits htc1
    subst h2
    obtain ⟨g2, g1, gpres, gbits, gtc⟩ :=
      ih bytes1 (L + 6) (by rw [h1]; simp at hcap; omega) htc1
    have hfold : (c :: cs).foldl sixStep (bytes, L) =
        cs.foldl sixStep (bytes1, L + 6) := by
      simp [List.foldl, ← hst]
    rw [hfold]
    refine ⟨by rw [g2]; simp; omega, by rw [g1, h1], ?_, ?_, ?_⟩
    · intro j hj
      rw [gpres j (by omega), hpres j hj]
    · intro k t hk ht
      cases k with
      | zero =>
        have hp := gpres (L + (6 * 0 + t)) (by omega)
        rw [hp]
        simpa using hbits t ht
      | succ m =>
        have hg := gbits m t (by simp at hk; omega) ht
        rw [show L + (6 * (m + 1) + t) = (L + 6) + (6 * m + t) by ring, hg]
        simp
    · intro j hj
      apply gtc
      simp only [List.length_cons] at hj
      omega

/-- All bits of a zero-filled byte array are clear. -/
theorem trailClear_replicate (n : Nat) : trailClear (List.replicate n 0) 0 := by
  intro j _
  have hz : (List.replicate n (0 : Nat)).getD (j / 8) 0 = 0 := by
    rw [getD_eq_get?]
    cases hq : (List.replicate n (0 : Nat)).get? (j / 8) with
    | none => simp
    | some x =>
      have := List.get?_mem hq
      rw [List.eq_of_mem_replicate this]
      simp
  simp [bitAtL, hz]

/-- C5, counterexample: `from_sixbit` never fails.  On a string containing
the space character (code 32, outside the armor range `[48, 119]`) it
returns an ordinary buffer — the arithmetic sends `ch = -16` through the
same bit loop (two's-complement bits `110000`, byte `0xC0`) and no
`FormatError` exists anywhere in the decoder. -/
theorem from_sixbit_no_format_error :
    from_sixbit ⟨[], 0⟩ " " = ⟨[192], 6⟩ ∧ Char.toNat ' ' < 48 := by
  constructor
  · rfl
  · decide

/-- C5, amended: building a bit buffer from six-bit text maps each character
`c` to `ch = ord(c) - 48`, further reduced by 8 when that value exceeds 40,
and appends the six low bits of `ch` most-significant-bit first (bit `t` of
character `k` lands at position `6k + t`).  No range check is performed:
characters outside `[48, 119]` are processed by the same arithmetic, and the
build always succeeds with `6·len` bits in `len` bytes. -/
theorem from_sixbit_msb_first (s : String) :
    (from_sixbit ⟨[], 0⟩ s).bitlen = 6 * s.length ∧
    (from_sixbit ⟨[], 0⟩ s).bits.length = s.length ∧
    ∀ k t, k < s.length → t < 6 →
      bitAt (from_sixbit ⟨[], 0⟩ s) (6 * k + t) =
        charBit (s.data.getD k 'A') t := by
  have hlen : s.length = s.data.length := rfl
  obtain ⟨h2, h1, _, hbits, _⟩ :=
    foldSix_spec s.data (List.replicate s.length 0) 0
      (by rw [hlen]; simp; omega) (trailClear_replicate s.length)
  have hfs : from_sixbit ⟨[], 0⟩ s =
      ⟨(s.data.foldl sixStep (List.replicate s.length 0, 0)).1,
       (s.data.foldl sixStep (List.replicate s.length 0, 0)).2⟩ := by
    simp [from_sixbit]
  rw [hfs]
  refine ⟨?_, ?_, ?_⟩
  · show (s.data.foldl sixStep (List.replicate s.length 0, 0)).2 =
      6 * s.length
    rw [h2, hlen]
    omega
  · show (s.data.foldl sixStep (List.replicate s.length 0, 0)).1.length =
      s.length
    rw [h1]
    simp
  · intro k t hk ht
    have hb := hbits k t (by rw [hlen] at hk; exact hk) ht
    show bitAtL (s.data.foldl sixStep (List.replicate s.length 0, 0)).1
      (6 * k + t) = charBit (s.data.getD k 'A') t
    simpa using hb

/-- Witness for `from_sixbit_msb_first`: the first armor bit of `"w"`
(code 119, armor value 63) is 1. -/
theorem from_sixbit_msb_first_witness :
    ((0 : Nat) < ("w" : String).length ∧ (0 : Nat) < 6) ∧
      bitAt (from_sixbit ⟨[], 0⟩ "w") (6 * 0 + 0) =
        charBit (("w" : String).data.getD 0 'A') 0 :=
  ⟨⟨by decide, by decide⟩,
    (from_sixbit_msb_first "w").2.2 0 0 (by decide) (by decide)⟩

/-- `natToBV` always produces exactly `w` bits. -/
theorem length_natToBV : ∀ (w n : Nat), (natToBV w n).length = w := by
  intro w
  induction w with
  | zero => intro n; rfl
  | succ v ih => intro n; simp [natToBV, ih]

/-- `intToBV` always produces exactly `w` bits. -/
theorem length_intToBV (w : Nat) (v : Int) : (intToBV w v).length = w :=
  length_natToBV w _

/-- The big-endian fold with a nonzero accumulator. -/
theorem bvToNat_acc : ∀ (l : List Bool) (a : Nat),
    l.foldl (fun a b => 2 * a + b.toNat) a = a * 2 ^ l.length + bvToNat l := by
  intro l
  induction l with
  | nil => intro a; simp [bvToNat]
  | cons b l ih =>
    intro a
    show l.foldl _ (2 * a + b.toNat) = a * 2 ^ (b :: l).length + bvToNat (b :: l)
    rw [ih (2 * a + b.toNat)]
    have hb : bvToNat (b :: l) = b.toNat * 2 ^ l.length + bvToNat l := by
      show l.foldl _ (2 * 0 + b.toNat) = _
      rw [ih (2 * 0 + b.toNat)]
      ring_nf
    rw [hb]
    simp [List.length_cons, pow_succ]
    ring

/-- Decoding inverts encoding for `w`-bit unsigned values. -/
theorem bvToNat_natToBV : ∀ (w n : Nat), n < 2 ^ w →
    bvToNat (natToBV w n) = n := by
  intro w
  induction w with
  | zero =>
    intro n h
    interval_cases n
    rfl
  | succ v ih =>
    intro n h
    show bvToNat (decide (2 ^ v ≤ n) :: natToBV v (n % 2 ^ v)) = n
    have hrec := ih (n % 2 ^ v) (Nat.mod_lt _ (Nat.pos_pow_of_pos _ (by omega)))
    have hcons : bvToNat (decide (2 ^ v ≤ n) :: natToBV v (n % 2 ^ v)) =
        (decide (2 ^ v ≤ n)).toNat * 2 ^ v + (n % 2 ^ v) := by
      show (natToBV v (n % 2 ^ v)).foldl _ (2 * 0 + (decide (2 ^ v ≤ n)).toNat) = _
      rw [bvToNat_acc, length_natToBV, hrec]
      ring_nf
    rw [hcons]
    by_cases hc : 2 ^ v ≤ n
    · rw [decide_eq_true hc, Bool.toNat_true, one_mul]
      have h2 : n % 2 ^ v = n - 2 ^ v := by
        rw [Nat.mod_eq_sub_mod hc]
        exact Nat.mod_eq_of_lt (by rw [pow_succ] at h; omega)
      omega
    · rw [decide_eq_false hc, Bool.toNat_false, zero_mul, Nat.zero_add]
      exact Nat.mod_eq_of_lt (by omega)

/-- The unsigned reading is always below `2 ^ w`. -/
theorem bvToNat_lt (l : List Bool) : bvToNat l < 2 ^ l.length := by
  induction l using List.reverseRecOn with
  | nil => simp [bvToNat]
  | append_singleton l b ih =>
    have hsplit : bvToNat (l ++ [b]) = bvToNat l * 2 + b.toNat := by
      unfold bvToNat
      rw [List.foldl_append]
      show List.foldl _ (List.foldl _ 0 l) [b] = _
      simp [List.foldl]
      ring
    have hb : b.toNat ≤ 1 := by cases b <;> decide
    rw [hsplit, List.length_append, List.length_singleton, pow_succ]
    omega

/-- Two's-complement decoding inverts two's-complement encoding on the
representable range. -/
theorem sIntFromBV_intToBV (w : Nat) (v : Int) (hw : 0 < w)
    (h1 : -(2 ^ (w - 1)) ≤ v) (h2 : v < 2 ^ (w - 1)) :
    sIntFromBV (intToBV w v) = v := by
  have hsplit : (2 : Int) ^ w = 2 ^ (w - 1) * 2 := by
    rw [← pow_succ]
    congr 1
    omega
  have hmod : v % ((2 : Int) ^ w) = if 0 ≤ v then v else v + 2 ^ w := by
    by_cases hv : 0 ≤ v
    · rw [if_pos hv]
      exact Int.emod_eq_of_lt hv (by omega)
    · rw [if_neg hv]
      have hmul : v + 2 ^ w = v + 2 ^ w * 1 := by ring
      have : (v + 2 ^ w) % ((2 : Int) ^ w) = v % ((2 : Int) ^ w) := by
        rw [hmul, Int.add_mul_emod_self_left]
      rw [← this]
      exact Int.emod_eq_of_lt (by omega) (by omega)
  have hunat : ((v % ((2 : Int) ^ w)).toNat : Int) = v % ((2 : Int) ^ w) := by
    have : 0 ≤ v % ((2 : Int) ^ w) := Int.emod_nonneg v (by positivity)
    omega
  have hulim : (v % ((2 : Int) ^ w)).toNat < 2 ^ w := by
    have : v % ((2 : Int) ^ w) < 2 ^ w :=
      Int.emod_lt_of_pos v (by positivity)
    have h2w : ((2 : Int) ^ w) = ((2 ^ w : Nat) : Int) := by push_cast; ring
    omega
  unfold sIntFromBV intToBV
  rw [length_natToBV, bvToNat_natToBV w _ hulim]
  by_cases hv : 0 ≤ v
  · rw [hmod, if_pos hv] at hunat ⊢
    have hlt : (v.toNat : Int) = v := by omega
    have hcond : ¬ 2 ^ (w - 1) ≤ v.toNat := by
      intro hc
      have : ((2 ^ (w - 1) : Nat) : Int) ≤ (v.toNat : Int) := by
        exact_mod_cast hc
      push_cast at this
      omega
    rw [if_neg hcond]
    omega
  · rw [hmod, if_neg hv] at hunat ⊢
    have hcond : 2 ^ (w - 1) ≤ (v + 2 ^ w).toNat := by
      have : ((2 ^ (w - 1) : Nat) : Int) ≤ ((v + 2 ^ w).toNat : Int) := by
        push_cast
        omega
      exact_mod_cast this
    rw [if_pos hcond]
    have h2w : ((2 : Int) ^ w) = ((2 ^ w : Nat) : Int) := by push_cast; ring
    omega

/-- Slicing past a prefix. -/
theorem bvSlice_append_right (x y : List Bool) (a b : Nat)
    (ha : x.length ≤ a) (hb : x.length ≤ b) :
    bvSlice (x ++ y) a b = bvSlice y (a - x.length) (b - x.length) := by
  obtain ⟨a2, rfl⟩ : ∃ a2, a = x.length + a2 := ⟨a - x.length, by omega⟩
  obtain ⟨b2, rfl⟩ : ∃ b2, b = x.length + b2 := ⟨b - x.length, by omega⟩
  unfold bvSlice
  rw [List.take_append, List.drop_append]
  simp

/-- A slice that starts at 0 and covers exactly the leading chunk. -/
theorem bvSlice_here (x y : List Bool) (b : Nat) (hb : x.length = b) :
    bvSlice (x ++ y) 0 b = x := by
  unfold bvSlice
  rw [← hb, List.take_left, List.drop_zero]

/-- A slice of the whole list. -/
theorem bvSlice_all (x : List Bool) (b : Nat) (hb : x.length ≤ b) :
    bvSlice x 0 b = x := by
  unfold bvSlice
  rw [List.take_all_of_le hb, List.drop_zero]

/-- `pyInt` on a natural number. -/
theorem pyInt_natCast (n : Nat) : pyInt (n : ℚ) = n := by
  unfold pyInt
  rw [if_neg (not_lt.mpr (by positivity))]
  exact_mod_cast Int.floor_natCast n

/-- Peel an unsigned chunk off the front of a slice. -/
theorem peelN (w n : Nat) (y : List Bool) (a b : Nat) (ha : w ≤ a)
    (hb : w ≤ b) :
    bvSlice (natToBV w n ++ y) a b = bvSlice y (a - w) (b - w) := by
  have := bvSlice_append_right (natToBV w n) y a b
    (by rw [length_natToBV]; omega) (by rw [length_natToBV]; omega)
  rwa [length_natToBV] at this

/-- Peel a signed chunk off the front of a slice. -/
theorem peelI (w : Nat) (v : Int) (y : List Bool) (a b : Nat) (ha : w ≤ a)
    (hb : w ≤ b) :
    bvSlice (intToBV w v ++ y) a b = bvSlice y (a - w) (b - w) := by
  have := bvSlice_append_right (intToBV w v) y a b
    (by rw [length_intToBV]; omega) (by rw [length_intToBV]; omega)
  rwa [length_intToBV] at this

/-- Peel a single bit off the front of a slice. -/
theorem peelB (c : Bool) (y : List Bool) (a b : Nat) (ha : 1 ≤ a)
    (hb : 1 ≤ b) :
    bvSlice (c :: y) a b = bvSlice y (a - 1) (b - 1) := by
  have := bvSlice_append_right [c] y a b (by simpa using ha)
    (by simpa using hb)
  simpa using this

/-- The one-bit slice at the front of a cons. -/
theorem sliceB_here (c : Bool) (y : List Bool) :
    bvSlice (c :: y) 0 1 = [c] := rfl

/-- Truncation toward zero never grows the magnitude. -/
theorem pyInt_abs_le (q : ℚ) : |(pyInt q : ℚ)| ≤ |q| := by
  unfold pyInt
  split_ifs with h
  · have h1 : (⌈q⌉ : ℚ) ≤ 0 := by
      have : ⌈q⌉ ≤ 0 := Int.ceil_le.mpr (by exact_mod_cast le_of_lt h)
      exact_mod_cast this
    rw [abs_of_nonpos h1, abs_of_nonpos (le_of_lt h)]
    have := Int.le_ceil q
    linarith
  · push_neg at h
    have h1 : (0 : ℚ) ≤ (⌊q⌋ : ℚ) := by
      have : 0 ≤ ⌊q⌋ := Int.floor_nonneg.mpr h
      exact_mod_cast this
    rw [abs_of_nonneg h1, abs_of_nonneg h]
    exact Int.floor_le q

/-- Truncation toward zero has error strictly below one. -/
theorem pyInt_sub_abs_lt (q : ℚ) : |(pyInt q : ℚ) - q| < 1 := by
  unfold pyInt
  split_ifs with h
  · rw [abs_of_nonneg (by linarith [Int.le_ceil q])]
    have := Int.ceil_lt_add_one q
    push_cast at this ⊢
    linarith
  · rw [abs_of_nonpos (by linarith [Int.floor_le q])]
    have := Int.sub_one_lt_floor q
    push_cast at this ⊢
    linarith

/-- C8: decoding the encoding of a message-1 parameter set recovers every
integer field exactly, `SOG`/`COG` exactly at one-decimal precision, and
`longitude`/`latitude` within the `1/600000` quantisation, for every
in-range parameter dictionary supplying all fields (`s10`/`c10` are the
integer tenths of `SOG`/`COG`). -/
theorem msg1_roundtrip (p : Msg1Params) (s10 c10 : Nat)
    (hRI : p.RepeatIndicator < 4) (hUID : p.UserID < 2 ^ 30)
    (hNS : p.NavigationStatus < 16)
    (hROTl : -128 ≤ p.ROT) (hROTu : p.ROT < 128)
    (hSOG : p.SOG = (s10 : ℚ) / 10) (hs10b : s10 < 1024)
    (hPA : p.PositionAccuracy < 2)
    (hlon : |p.longitude| ≤ 180) (hlat : |p.latitude| ≤ 90)
    (hCOG : p.COG = (c10 : ℚ) / 10) (hc10b : c10 < 4096)
    (hTH : p.TrueHeading < 512) (hTS : p.TimeStamp < 64)
    (hsync : p.state_syncstate < 4) (hstout : p.state_slottimeout < 8)
    (hsoff : p.state_slotoffset < 2 ^ 14) :
    (decode (encode p)).RepeatIndicator = p.RepeatIndicator ∧
    (decode (encode p)).UserID = p.UserID ∧
    (decode (encode p)).NavigationStatus = p.NavigationStatus ∧
    (decode (encode p)).ROT = p.ROT ∧
    (decode (encode p)).SOG = p.SOG ∧
    (decode (encode p)).PositionAccuracy = p.PositionAccuracy ∧
    |(decode (encode p)).longitude - p.longitude| < 1 / 600000 ∧
    |(decode (encode p)).latitude - p.latitude| < 1 / 600000 ∧
    (decode (encode p)).COG = p.COG ∧
    (decode (encode p)).TrueHeading = p.TrueHeading ∧
    (decode (encode p)).TimeStamp = p.TimeStamp ∧
    (decode (encode p)).RAIM = p.RAIM ∧
    (decode (encode p)).state_syncstate = p.state_syncstate ∧
    (decode (encode p)).state_slottimeout = p.state_slottimeout ∧
    (decode (encode p)).state_slotoffset = p.state_slotoffset := by
  have hs2 : bvSlice (encode p) 6 8 = natToBV 2 p.RepeatIndicator := by
    simp only [encode, List.append_assoc]
    rw [peelN 6 1]
    norm_num
    rw [bvSlice_here]
    all_goals simp [length_natToBV, length_intToBV]
  have hs3 : bvSlice (encode p) 8 38 = natToBV 30 p.UserID := by
    simp only [encode, List.append_assoc]
    rw [peelN 6 1]
    norm_num
    rw [peelN 2 p.RepeatIndicator]
    norm_num
    rw [bvSlice_here]
    all_goals simp [length_natToBV, length_intToBV]
  have hs4 : bvSlice (encode p) 38 42 = natToBV 4 p.NavigationStatus := by
    simp only [encode, List.append_assoc]
    rw [peelN 6 1]
    norm_num
    rw [peelN 2 p.RepeatIndicator]
    norm_num
    rw [peelN 30 p.UserID]
    norm_num
    rw [bvSlice_here]
    all_goals simp [length_natToBV, length_intToBV]
  have hs5 : bvSlice (encode p) 42 50 = intToBV 8 p.ROT := by
    simp only [encode, List.append_assoc]
    rw [peelN 6 1]
    norm_num
    rw [peelN 2 p.RepeatIndicator]
    norm_num
    rw [peelN 30 p.UserID]
    norm_num
    rw [peelN 4 p.NavigationStatus]
    norm_num
    rw [bvSlice_here]
    all_goals simp [length_natToBV, length_intToBV]
  have hs6 : bvSlice (encode p) 50 60 = natToBV 10 (pyInt (p.SOG * 10)).toNat := by
    simp only [encode, List.append_assoc]
    rw [peelN 6 1]
    norm_num
    rw [peelN 2 p.RepeatIndicator]
    norm_num
    rw [peelN 30 p.UserID]
    norm_num
    rw [peelN 4 p.NavigationStatus]
    norm_num
    rw [peelI 8 p.ROT]
    norm_num
    rw [bvSlice_here]
    all_goals simp [length_natToBV, length_intToBV]
  have hs7 : bvSlice (encode p) 60 61 = natToBV 1 p.PositionAccuracy := by
    simp only [encode, List.append_assoc]
    rw [peelN 6 1]
    norm_num
    rw [peelN 2 p.RepeatIndicator]
    norm_num
    rw [peelN 30 p.UserID]
    norm_num
    rw [peelN 4 p.NavigationStatus]
    norm_num
    rw [peelI 8 p.ROT]
    norm_num
    rw [peelN 10 (pyInt (p.SOG * 10)).toNat]
    norm_num
    rw [bvSlice_here]
    all_goals simp [length_natToBV, length_intToBV]
  have hs8 : bvSlice (encode p) 61 89 = intToBV 28 (pyInt (p.longitude * 600000)) := by
    simp only [encode, List.append_assoc]
    rw [peelN 6 1]
    norm_num
    rw [peelN 2 p.RepeatIndicator]
    norm_num
    rw [peelN 30 p.UserID]
    norm_num
    rw [peelN 4 p.NavigationStatus]
    norm_num
    rw [peelI 8 p.ROT]
    norm_num
    rw [peelN 10 (pyInt (p.SOG * 10)).toNat]
    norm_num
    rw [peelN 1 p.PositionAccuracy]
    norm_num
    rw [bvSlice_here]
    all_goals simp [length_natToBV, length_intToBV]
  have hs9 : bvSlice (encode p) 89 116 = intToBV 27 (pyInt (p.latitude * 600000)) := by
    simp only [encode, List.append_assoc]
    rw [peelN 6 1]
    norm_num
    rw [peelN 2 p.RepeatIndicator]
    norm_num
    rw [peelN 30 p.UserID]
    norm_num
    rw [peelN 4 p.NavigationStatus]
    norm_num
    rw [peelI 8 p.ROT]
    norm_num
    rw [peelN 10 (pyInt (p.SOG * 10)).toNat]
    norm_num
    rw [peelN 1 p.PositionAccuracy]
    norm_num
    rw [peelI 28 (pyInt (p.longitude * 600000))]
    norm_num
    rw [bvSlice_here]
    all_goals simp [length_natToBV, length_intToBV]
  have hs10 : bvSlice (encode p) 116 128 = natToBV 12 (pyInt (p.COG * 10)).toNat := by
    simp only [encode, List.append_assoc]
    rw [peelN 6 1]
    norm_num
    rw [peelN 2 p.RepeatIndicator]
    norm_num
    rw [peelN 30 p.UserID]
    norm_num
    rw [peelN 4 p.NavigationStatus]
    norm_num
    rw [peelI 8 p.ROT]
    norm_num
    rw [peelN 10 (pyInt (p.SOG * 10)).toNat]
    norm_num
    rw [peelN 1 p.PositionAccuracy]
    norm_num
    rw [peelI 28 (pyInt (p.longitude * 600000))]
    norm_num
    rw [peelI 27 (pyInt (p.latitude * 600000))]
    norm_num
    rw [bvSlice_here]
    all_goals simp [length_natToBV, length_intToBV]
  have hs11 : bvSlice (encode p) 128 137 = natToBV 9 p.TrueHeading := by
    simp only [encode, List.append_assoc]
    rw [peelN 6 1]
    norm_num
    rw [peelN 2 p.RepeatIndicator]
    norm_num
    rw [peelN 30 p.UserID]
    norm_num
    rw [peelN 4 p.NavigationStatus]
    norm_num
    rw [peelI 8 p.ROT]
    norm_num
    rw [peelN 10 (pyInt (p.SOG * 10)).toNat]
    norm_num
    rw [peelN 1 p.PositionAccuracy]
    norm_num
    rw [peelI 28 (pyInt (p.longitude * 600000))]
    norm_num
    rw [peelI 27 (pyInt (p.latitude * 600000))]
    norm_num
    rw [peelN 12 (pyInt (p.COG * 10)).toNat]
    norm_num
    rw [bvSlice_here]
    all_goals simp [length_natToBV, length_intToBV]
  have hs12 : bvSlice (encode p) 137 143 = natToBV 6 p.TimeStamp := by
    simp only [encode, List.append_assoc]
    rw [peelN 6 1]
    norm_num
    rw [peelN 2 p.RepeatIndicator]
    norm_num
    rw [peelN 30 p.UserID]
    norm_num
    rw [peelN 4 p.NavigationStatus]
    norm_num
    rw [peelI 8 p.ROT]
    norm_num
    rw [peelN 10 (pyInt (p.SOG * 10)).toNat]
    norm_num
    rw [peelN 1 p.PositionAccuracy]
    norm_num
    rw [peelI 28 (pyInt (p.longitude * 600000))]
    norm_num
    rw [peelI 27 (pyInt (p.latitude * 600000))]
    norm_num
    rw [peelN 12 (pyInt (p.COG * 10)).toNat]
    norm_num
    rw [peelN 9 p.TrueHeading]
    norm_num
    rw [bvSlice_here]
    all_goals simp [length_natToBV, length_intToBV]
  have hs15 : bvSlice (encode p) 148 149 = [p.RAIM] := by
    simp only [encode, List.append_assoc]
    rw [peelN 6 1]
    norm_num
    rw [peelN 2 p.RepeatIndicator]
    norm_num
    rw [peelN 30 p.UserID]
    norm_num
    rw [peelN 4 p.NavigationStatus]
    norm_num
    rw [peelI 8 p.ROT]
    norm_num
    rw [peelN 10 (pyInt (p.SOG * 10)).toNat]
    norm_num
    rw [peelN 1 p.PositionAccuracy]
    norm_num
    rw [peelI 28 (pyInt (p.longitude * 600000))]
    norm_num
    rw [peelI 27 (pyInt (p.latitude * 600000))]
    norm_num
    rw [peelN 12 (pyInt (p.COG * 10)).toNat]
    norm_num
    rw [peelN 9 p.TrueHeading]
    norm_num
    rw [peelN 6 p.TimeStamp]
    norm_num
    rw [peelN 4 0]
    norm_num
    rw [peelN 1 0]
    norm_num
    rw [sliceB_here]
    all_goals simp [length_natToBV, length_intToBV]
  have hs16 : bvSlice (encode p) 149 151 = natToBV 2 p.state_syncstate := by
    simp only [encode, List.append_assoc]
    rw [peelN 6 1]
    norm_num
    rw [peelN 2 p.RepeatIndicator]
    norm_num
    rw [peelN 30 p.UserID]
    norm_num
    rw [peelN 4 p.NavigationStatus]
    norm_num
    rw [peelI 8 p.ROT]
    norm_num
    rw [peelN 10 (pyInt (p.SOG * 10)).toNat]
    norm_num
    rw [peelN 1 p.PositionAccuracy]
    norm_num
    rw [peelI 28 (pyInt (p.longitude * 600000))]
    norm_num
    rw [peelI 27 (pyInt (p.latitude * 600000))]
    norm_num
    rw [peelN 12 (pyInt (p.COG * 10)).toNat]
    norm_num
    rw [peelN 9 p.TrueHeading]
    norm_num
    rw [peelN 6 p.TimeStamp]
    norm_num
    rw [peelN 4 0]
    norm_num
    rw [peelN 1 0]
    norm_num
    rw [peelB p.RAIM]
    norm_num
    rw [bvSlice_here]
    all_goals simp [length_natToBV, length_intToBV]
  have hs17 : bvSlice (encode p) 151 154 = natToBV 3 p.state_slottimeout := by
    simp only [encode, List.append_assoc]
    rw [peelN 6 1]
    norm_num
    rw [peelN 2 p.RepeatIndicator]
    norm_num
    rw [peelN 30 p.UserID]
    norm_num
    rw [peelN 4 p.NavigationStatus]
    norm_num
    rw [peelI 8 p.ROT]
    norm_num
    rw [peelN 10 (pyInt (p.SOG * 10)).toNat]
    norm_num
    rw [peelN 1 p.PositionAccuracy]
    norm_num
    rw [peelI 28 (pyInt (p.longitude * 600000))]
    norm_num
    rw [peelI 27 (pyInt (p.latitude * 600000))]
    norm_num
    rw [peelN 12 (pyInt (p.COG * 10)).toNat]
    norm_num
    rw [peelN 9 p.TrueHeading]
    norm_num
    rw [peelN 6 p.TimeStamp]
    norm_num
    rw [peelN 4 0]
    norm_num
    rw [peelN 1 0]
    norm_num
    rw [peelB p.RAIM]
    norm_num
    rw [peelN 2 p.state_syncstate]
    norm_num
    rw [bvSlice_here]
    all_goals simp [length_natToBV, length_intToBV]
  have hs18 : bvSlice (encode p) 154 168 = natToBV 14 p.state_slotoffset := by
    simp only [encode, List.append_assoc]
    rw [peelN 6 1]
    norm_num
    rw [peelN 2 p.RepeatIndicator]
    norm_num
    rw [peelN 30 p.UserID]
    norm_num
    rw [peelN 4 p.NavigationStatus]
    norm_num
    rw [peelI 8 p.ROT]
    norm_num
    rw [peelN 10 (pyInt (p.SOG * 10)).toNat]
    norm_num
    rw [peelN 1 p.PositionAccuracy]
    norm_num
    rw [peelI 28 (pyInt (p.longitude * 600000))]
    norm_num
    rw [peelI 27 (pyInt (p.latitude * 600000))]
    norm_num
    rw [peelN 12 (pyInt (p.COG * 10)).toNat]
    norm_num
    rw [peelN 9 p.TrueHeading]
    norm_num
    rw [peelN 6 p.TimeStamp]
    norm_num
    rw [peelN 4 0]
    norm_num
    rw [peelN 1 0]
    norm_num
    rw [peelB p.RAIM]
    norm_num
    rw [peelN 2 p.state_syncstate]
    norm_num
    rw [peelN 3 p.state_slottimeout]
    norm_num
    rw [bvSlice_all]
    all_goals simp [length_natToBV, length_intToBV]
  have hSOGv : p.SOG * 10 = (s10 : ℚ) := by
    rw [hSOG]
    field_simp
  have hCOGv : p.COG * 10 = (c10 : ℚ) := by
    rw [hCOG]
    field_simp
  refine ⟨?_, ?_, ?_, ?_, ?_, ?_, ?_, ?_, ?_, ?_, ?_, ?_, ?_, ?_, ?_⟩
  · simp only [decode]
    rw [hs2]
    exact bvToNat_natToBV 2 _ (by simpa using hRI)
  · simp only [decode]
    rw [hs3]
    exact bvToNat_natToBV 30 _ hUID
  · simp only [decode]
    rw [hs4]
    exact bvToNat_natToBV 4 _ (by simpa using hNS)
  · simp only [decode]
    rw [hs5]
    exact sIntFromBV_intToBV 8 p.ROT (by norm_num) (by simpa using hROTl)
      (by simpa using hROTu)
  · simp only [decode]
    rw [hs6, hSOGv, pyInt_natCast, Int.toNat_natCast,
      bvToNat_natToBV 10 s10 (by simpa using hs10b), hSOG]
  · simp only [decode]
    rw [hs7]
    exact bvToNat_natToBV 1 _ (by simpa using hPA)
  · simp only [decode]
    rw [hs8]
    have habsq : |p.longitude * 600000| ≤ 108000000 := by
      rw [abs_mul, show |(600000 : ℚ)| = 600000 by norm_num]
      calc |p.longitude| * 600000 ≤ 180 * 600000 := by
            exact mul_le_mul_of_nonneg_right hlon (by norm_num)
        _ = 108000000 := by norm_num
    have habsv : |pyInt (p.longitude * 600000)| ≤ 108000000 := by
      have h1 : |(pyInt (p.longitude * 600000) : ℚ)| ≤ 108000000 :=
        le_trans (pyInt_abs_le _) habsq
      rw [← Int.cast_abs] at h1
      exact_mod_cast h1
    have hb := abs_le.mp habsv
    rw [sIntFromBV_intToBV 28 _ (by norm_num)
      (by norm_num; omega) (by norm_num; omega)]
    have key := pyInt_sub_abs_lt (p.longitude * 600000)
    rw [show (pyInt (p.longitude * 600000) : ℚ) / 600000 - p.longitude =
        ((pyInt (p.longitude * 600000) : ℚ) - p.longitude * 600000) / 600000
      by field_simp; ring]
    rw [abs_div, show |(600000 : ℚ)| = 600000 by norm_num,
      div_lt_div_iff (by norm_num) (by norm_num)]
    nlinarith [key]
  · simp only [decode]
    rw [hs9]
    have habsq : |p.latitude * 600000| ≤ 54000000 := by
      rw [abs_mul, show |(600000 : ℚ)| = 600000 by norm_num]
      calc |p.latitude| * 600000 ≤ 90 * 600000 := by
            exact mul_le_mul_of_nonneg_right hlat (by norm_num)
        _ = 54000000 := by norm_num
    have habsv : |pyInt (p.latitude * 600000)| ≤ 54000000 := by
      have h1 : |(pyInt (p.latitude * 600000) : ℚ)| ≤ 54000000 :=
        le_trans (pyInt_abs_le _) habsq
      rw [← Int.cast_abs] at h1
      exact_mod_cast h1
    have hb := abs_le.mp habsv
    rw [sIntFromBV_intToBV 27 _ (by norm_num)
      (by norm_num; omega) (by norm_num; omega)]
    have key := pyInt_sub_abs_lt (p.latitude * 600000)
    rw [show (pyInt (p.latitude * 600000) : ℚ) / 600000 - p.latitude =
        ((pyInt (p.latitude * 600000) : ℚ) - p.latitude * 600000) / 600000
      by field_simp; ring]
    rw [abs_div, show |(600000 : ℚ)| = 600000 by norm_num,
      div_lt_div_iff (by norm_num) (by norm_num)]
    nlinarith [key]
  · simp only [decode]
    rw [hs10, hCOGv, pyInt_natCast, Int.toNat_natCast,
      bvToNat_natToBV 12 c10 (by simpa using hc10b), hCOG]
  · simp only [decode]
    rw [hs11]
    exact bvToNat_natToBV 9 _ (by simpa using hTH)
  · simp only [decode]
    rw [hs12]
    exact bvToNat_natToBV 6 _ (by simpa using hTS)
  · simp only [decode]
    rw [hs15]
    cases p.RAIM <;> rfl
  · simp only [decode]
    rw [hs16]
    exact bvToNat_natToBV 2 _ (by simpa using hsync)
  · simp only [decode]
    rw [hs17]
    exact bvToNat_natToBV 3 _ (by simpa using hstout)
  · simp only [decode]
    rw [hs18]
    exact bvToNat_natToBV 14 _ hsoff

/-- Witness for `msg1_roundtrip` at the concrete parameter set. -/
theorem msg1_roundtrip_witness :
    msg1Example.RepeatIndicator < 4 ∧
    ((decode (encode msg1Example)).RepeatIndicator = msg1Example.RepeatIndicator ∧
      (decode (encode msg1Example)).UserID = msg1Example.UserID ∧
      (decode (encode msg1Example)).NavigationStatus = msg1Example.NavigationStatus ∧
      (decode (encode msg1Example)).ROT = msg1Example.ROT ∧
      (decode (encode msg1Example)).SOG = msg1Example.SOG ∧
      (decode (encode msg1Example)).PositionAccuracy = msg1Example.PositionAccuracy ∧
      |(decode (encode msg1Example)).longitude - msg1Example.longitude| < 1 / 600000 ∧
      |(decode (encode msg1Example)).latitude - msg1Example.latitude| < 1 / 600000 ∧
      (decode (encode msg1Example)).COG = msg1Example.COG ∧
      (decode (encode msg1Example)).TrueHeading = msg1Example.TrueHeading ∧
      (decode (encode msg1Example)).TimeStamp = msg1Example.TimeStamp ∧
      (decode (encode msg1Example)).RAIM = msg1Example.RAIM ∧
      (decode (encode msg1Example)).state_syncstate = msg1Example.state_syncstate ∧
      (decode (encode msg1Example)).state_slottimeout = msg1Example.state_slottimeout ∧
      (decode (encode msg1Example)).state_slotoffset = msg1Example.state_slotoffset) :=
  ⟨by norm_num [msg1Example],
    msg1_roundtrip msg1Example 150 3450
      (by norm_num [msg1Example])
      (by norm_num [msg1Example])
      (by norm_num [msg1Example])
      (by norm_num [msg1Example])
      (by norm_num [msg1Example])
      (by norm_num [msg1Example])
      (by norm_num)
      (by norm_num [msg1Example])
      (by rw [show msg1Example.longitude = -73297967 / 600000 from rfl,
            abs_le]
          constructor <;> norm_num)
      (by rw [show msg1Example.latitude = 24618276 / 600000 from rfl, abs_le]
          constructor <;> norm_num)
      (by norm_num [msg1Example])
      (by norm_num)
      (by norm_num [msg1Example])
      (by norm_num [msg1Example])
      (by norm_num [msg1Example])
      (by norm_num [msg1Example])
      (by norm_num [msg1Example])⟩

end NoaaData
